import Mathlib

/-!
Shallow embedding of `src/tessif_oemof_4_4/post_process.py` (tessif-oemof-4-4).

The module post-processes a solved oemof energy system.  We embed the data the
code consumes — the node graph, the per-edge `Flow` objects, the optimization
result sequences and the scalar investment results — and each `_map_*` method
as a Lean function over that data.

Modelling conventions, used throughout:

* Numeric values are rationals (`ℚ`); pandas floats carry no NaN/inf in the
  model.  The tessif sentinel `esn_defs["variable_capacity"]` (`float("+inf")`
  in tessif) is modelled as a distinguished constructor `CapVal.sentinel`,
  distinct from every number, mirroring its role as an attribute-absence
  sentinel.
* Fallible Python operations (KeyError, IndexError, TypeError from
  subscripting, `max()` of an empty sequence, attribute access on a label that
  lacks an attribute) are modelled with `Option`: a raised exception is `none`,
  and it poisons the whole enclosing `_map_*` construction, exactly as an
  exception aborts the Python constructor.
* Python `dict`s keyed by labels/edges are association lists in insertion
  order; `alookup` models subscript access.  Where the code relies on keys
  being unique (oemof guarantees one flow per directed node pair and distinct
  node labels), theorems carry explicit `Nodup` hypotheses.
* Signed zeros matter for `LoadResultier._map_loads` (it forces `-0.0` on
  inflow columns and `+0.0` on outflow columns), so load-DataFrame cells are
  `SFloat`: a rational plus a negative-zero flag that is meaningful only on
  zero, with IEEE behaviour for negation.
-/

namespace TessifOmf

/-- A capacity-like value as the Python code sees it: either a plain number or
the tessif default `esn_defs["variable_capacity"]` (`float("+inf")`), which the
code uses as the `getattr` fallback for a missing `nominal_value` and as the
stored capacity of variable-size nodes (buses, links). -/
inductive CapVal where
  | sentinel
  | val (q : ℚ)
deriving DecidableEq, Repr

/-- A pandas float cell with IEEE-style signed zero: `negZero` is meaningful
only when `val = 0` and records that the stored float is `-0.0`. -/
structure SFloat where
  val : ℚ
  negZero : Bool
deriving DecidableEq, Repr

/-- Embeds an optimization-result number (no signed zero yet) as a cell. -/
def SFloat.ofRat (q : ℚ) : SFloat := ⟨q, false⟩

/-- `series.multiply(-1)`: IEEE negation, `-(+0.0) = -0.0` and `-(-0.0) = +0.0`. -/
def SFloat.neg (x : SFloat) : SFloat :=
  ⟨-x.val, if x.val = 0 then !x.negZero else false⟩

/-- `replace({0: -0.0, 0.0: -0.0})`: any zero (either sign, since `0.0 == -0.0`
in float comparison) becomes `-0.0`. -/
def SFloat.toNegZero (x : SFloat) : SFloat :=
  if x.val = 0 then ⟨0, true⟩ else x

/-- `replace({-0.0: 0.0})`: any zero (float equality matches both signs)
becomes `+0.0`. -/
def SFloat.toPosZero (x : SFloat) : SFloat :=
  if x.val = 0 then ⟨0, false⟩ else x

/-- `oemof.solph.options.Investment` as consumed by the code: only the
`existing` start capacity and the periodical expansion costs `ep_costs` are
read. -/
structure Investment where
  existing : ℚ
  ep_costs : ℚ
deriving DecidableEq, Repr

/-- An `oemof.solph.Flow` as consumed by the code.  Every field the code reads
through `getattr(flow, attr, default)` is an `Option`: `none` models the
attribute being absent so that the `getattr` default applies.
`variable_costs`, when present, is a sequence (the code subscripts `[0]`). -/
structure Flow where
  investment : Option Investment
  nominal_value : Option ℚ
  variable_costs : Option (List ℚ)
  emissions : Option ℚ
deriving DecidableEq, Repr

/-- A node label (`tessif.frused.namedtuples.Uid` or a plain string).  `name`
models `str(node.label)`; every other field is an `Option`, `none` meaning the
attribute is absent (`hasattr` is false), as for plain-string labels. -/
structure Uid where
  name : String
  sector : Option String
  region : Option String
  carrier : Option String
  node_type : Option String
  latitude : Option ℚ
  longitude : Option ℚ
deriving DecidableEq, Repr

/-- A label with only a name, like a plain-string oemof label. -/
def Uid.plain (s : String) : Uid := ⟨s, none, none, none, none, none, none⟩

/-- The solph component classes the module distinguishes (exactly the classes
named in `OmfResultier.component_type_mapping` and in the isinstance chains of
`CapacityResultier`). -/
inductive Component where
  | sink
  | source
  | transformer
  | offsetTransformer
  | extractionTurbineCHP
  | genericCHP
  | bus
  | link
  | genericStorage
deriving DecidableEq, Repr

/-- `self._outflow_characterized_components`: Transformer, Source,
OffsetTransformer, ExtractionTurbineCHP, GenericCHP. -/
def Component.outflowCharacterized : Component → Bool
  | .transformer | .source | .offsetTransformer | .extractionTurbineCHP
  | .genericCHP => true
  | _ => false

/-- `self._inflow_characterized_components`: the tuple `(solph.Sink,)`. -/
def Component.inflowCharacterized : Component → Bool
  | .sink => true
  | _ => false

/-- An oemof node as consumed by the code.  `investment`,
`nominal_storage_capacity` and `electrical_output` are only meaningful for
`GenericStorage` resp. `GenericCHP` nodes (the code reads them only there);
`electrical_output` holds the labels of the buses of
`node.electrical_output`. -/
structure Node where
  label : Uid
  kind : Component
  investment : Option Investment
  nominal_storage_capacity : ℚ
  electrical_output : List String
deriving DecidableEq, Repr

/-- A node that is only a label and a kind. -/
def Node.plain (s : String) (k : Component) : Node :=
  ⟨Uid.plain s, k, none, 0, []⟩

/-- An optimized oemof `EnergySystem` together with its results, as consumed by
the code:

* `flowList` models `optimized_es.flows()`: the `Flow` object per directed
  node pair, keyed by `(source label, target label)`.  `node.inputs` /
  `node.outputs` are derived from it, as oemof builds `flows()` from exactly
  those dicts.
* `sequences` models the per-edge `flow` time series of
  `optimized_es.results["main"]` (the columns `solph.views.node` returns under
  `"sequences"` with column tag `"flow"`).
* `invest_scalars` models the `"scalars"` results: value of key
  `((m, n), "invest")` for an edge, and `((node, None), "invest")` for a
  storage (target `none`).
* `soc` models the `((node, None), "storage_content")` sequences of a
  `GenericStorage`. -/
structure EnergySystem where
  nodes : List Node
  flowList : List ((String × String) × Flow)
  sequences : List ((String × String) × List ℚ)
  invest_scalars : List ((String × Option String) × ℚ)
  soc : List (String × List ℚ)
deriving DecidableEq, Repr

/-- Association-list lookup, modelling Python `dict` subscription (`none` is a
KeyError). -/
def alookup {α β : Type} [DecidableEq α] : List (α × β) → α → Option β
  | [], _ => none
  | p :: rest, k => if p.1 = k then some p.2 else alookup rest k

/-- Monadic list map over `Option`, modelling a Python loop in which a raised
exception aborts the whole computation. -/
def optMapList {α β : Type} (g : α → Option β) : List α → Option (List β)
  | [] => some []
  | a :: l => do
    let b ← g a
    let r ← optMapList g l
    pure (b :: r)

/-- Builds a node-keyed result dict: one entry `str(node.label) ↦ g node` per
node, an exception (`none`) aborting the construction. -/
def buildMap {β : Type} (g : Node → Option β) :
    List Node → Option (List (String × β))
  | [] => some []
  | n :: rest => do
    let v ← g n
    let r ← buildMap g rest
    pure ((n.label.name, v) :: r)

/-- `node.inputs`: source label and `Flow` of every flow into the node, in
`flows()` order.  (In oemof, `node.inputs[src]` and `flows()[(src, node)]` are
the same `Flow` object; `flows()` is assembled from the `inputs` dicts.) -/
def inputFlows (es : EnergySystem) (node : Node) : List (String × Flow) :=
  es.flowList.filterMap fun e =>
    if e.1.2 = node.label.name then some (e.1.1, e.2) else none

/-- `node.outputs`: target label and `Flow` of every flow out of the node. -/
def outputFlows (es : EnergySystem) (node : Node) : List (String × Flow) :=
  es.flowList.filterMap fun e =>
    if e.1.1 = node.label.name then some (e.1.2, e.2) else none

/-- `[str(x.label) for x in node.inputs.keys()]`. -/
def inputLabels (es : EnergySystem) (node : Node) : List String :=
  (inputFlows es node).map Prod.fst

/-- `[str(x.label) for x in node.outputs.keys()]`. -/
def outputLabels (es : EnergySystem) (node : Node) : List String :=
  (outputFlows es node).map Prod.fst

/-- The observed flow time series of a directed edge in the optimization
results; an edge without a sequence entry yields the empty series. -/
def flowSeq (es : EnergySystem) (s t : String) : List ℚ :=
  (alookup es.sequences (s, t)).getD []

/-- `pandas` column mean over the index: `series.mean(axis="index")`.  The mean
of an empty series is NaN in pandas; the model returns `0` there (`0 / 0`);
every claim's statement only exercises nonempty series or discards the mean. -/
def seriesMean (l : List ℚ) : ℚ := l.sum / l.length

/-- Longest length among a list of series. -/
def maxLen (ls : List (List ℚ)) : Nat := (ls.map List.length).foldr max 0

/-- Pointwise (per-timestep) sum of several series, aligning shorter series
with zeros the way pandas aligns missing index entries. -/
def pointwiseSum (ls : List (List ℚ)) : List ℚ :=
  (List.range (maxLen ls)).map fun i => (ls.map fun l => l.getD i 0).sum

/-- `tessif.frused.defaults.energy_system_nodes["expansion_costs"]`, the
default expansion cost of a flow without an investment object. -/
def esn_expansion_costs : ℚ := 0

/-- `OmfResultier._map_nodes`: the node label string representations. -/
def mapNodes (es : EnergySystem) : List String :=
  es.nodes.map fun n => n.label.name

/-- `OmfResultier._map_edges`: one `nts.Edge(str(inflow), str(node))` per
`(inflow, node)` pair, iterating the nodes and each node's inputs. -/
def mapEdges (es : EnergySystem) : List (String × String) :=
  es.nodes.flatMap fun n => (inputFlows es n).map fun p => (p.1, n.label.name)

/-- A column name of a load DataFrame: either a renamed plain label or a still
tuple-shaped `(source label, target label)` pair (a column neither rename rule
touched). -/
inductive ColName where
  | str (s : String)
  | tup (s t : String)
deriving DecidableEq, Repr

/-- The `"sequences"` columns `solph.views.node` yields for a node, already
restricted to the `"flow"` columns (`LoadResultier._map_loads` drops all other
column tags) and renamed to `(str(col[0][0].label), str(col[0][1].label))`:
every result series of an edge touching the node. -/
def nodeSeqCols (es : EnergySystem) (node : Node) :
    List ((String × String) × List ℚ) :=
  es.sequences.filter fun e =>
    e.1.1 = node.label.name ∨ e.1.2 = node.label.name

/-- The first rename of `_map_loads`: a column `col` is renamed to the last
`n in col` with `n != str(node.label)` provided no output of the node has
`str(x.label) == col[1]`.  `some n` means the column becomes the plain inflow
name `n`; `none` means the column keeps its tuple name. -/
def inflowColName (es : EnergySystem) (node : Node) (c : String × String) :
    Option String :=
  if (outputLabels es node).contains c.2 then none
  else ([c.1, c.2].filter fun n => n ≠ node.label.name).getLast?

/-- The second rename of `_map_loads` (applied to the tuple columns that became
the outflow frame): a column `col` of the original frame is renamed to the last
`n in col` with `n != str(node.label)` provided no input of the node has
`str(x.label) == col[0]`. -/
def outflowColName (es : EnergySystem) (node : Node) (c : String × String) :
    Option String :=
  if (inputLabels es node).contains c.1 then none
  else ([c.1, c.2].filter fun n => n ≠ node.label.name).getLast?

/-- The inflow part of a node's load DataFrame: the columns the first rename
turned into plain names, multiplied by `-1` and with every zero forced to
`-0.0`. -/
def inflowLoadCols (es : EnergySystem) (node : Node) :
    List (ColName × List SFloat) :=
  (nodeSeqCols es node).filterMap fun c =>
    (inflowColName es node c.1).map fun nm =>
      (ColName.str nm, c.2.map fun q => ((SFloat.ofRat q).neg).toNegZero)

/-- The outflow part of a node's load DataFrame: the columns that kept their
tuple name, with every zero forced to `+0.0`, then renamed by the second
rename rule (a column it does not touch keeps the tuple name). -/
def outflowLoadCols (es : EnergySystem) (node : Node) :
    List (ColName × List SFloat) :=
  (nodeSeqCols es node).filterMap fun c =>
    if (inflowColName es node c.1).isSome then none
    else
      let nm := match outflowColName es node c.1 with
        | some s => ColName.str s
        | none => ColName.tup c.1.1 c.1.2
      some (nm, c.2.map fun q => (SFloat.ofRat q).toPosZero)

/-- A node's load DataFrame: `columns.name` is `str(node.label)` and the
columns are `pd.concat([inflows, outflows], axis="columns")`, inflow columns
first. -/
structure LoadDF where
  colName : String
  cols : List (ColName × List SFloat)
deriving DecidableEq, Repr

/-- `LoadResultier._map_loads` for one node. -/
def loadDFOf (es : EnergySystem) (node : Node) : LoadDF :=
  ⟨node.label.name, inflowLoadCols es node ++ outflowLoadCols es node⟩

/-- `LoadResultier._map_loads`: the load DataFrame per node name. -/
def mapLoads (es : EnergySystem) : List (String × LoadDF) :=
  es.nodes.map fun n => (n.label.name, loadDFOf es n)

/-- Modelled from the spec: the base framework's per-node observed inflow
series (`self.node_inflows[str(node.label)][str(inflow.label)]`), the
"observed flow time series for that edge" — the raw (non-negated) result
series of the edge `inflow → node`.  The base result-extraction framework
(`tessif.post_process`) is an external collaborator, out of scope of the
repository's source. -/
def nodeInflowSeries (es : EnergySystem) (node : Node) (inflow : String) :
    List ℚ :=
  flowSeq es inflow node.label.name

/-- Modelled from the spec: the base framework's
`self.node_outflows[str(node.label)][str(outflow.label)]` — the raw result
series of the edge `node → outflow`. -/
def nodeOutflowSeries (es : EnergySystem) (node : Node) (outflow : String) :
    List ℚ :=
  flowSeq es node.label.name outflow

/-- Modelled from the spec: the base framework's `self._outflows[label]`, the
outflow columns of a node keyed by target label (one column per outgoing edge
present in the result sequences). -/
def outflowCols (es : EnergySystem) (node : Node) : List (String × List ℚ) :=
  es.sequences.filterMap fun e =>
    if e.1.1 = node.label.name then some (e.1.2, e.2) else none

/-- `self._outflows[str(node.label)].mean()`: per-column means of the outflow
columns. -/
def outflowMeans (es : EnergySystem) (node : Node) : List (String × ℚ) :=
  (outflowCols es node).map fun p => (p.1, seriesMean p.2)

/-- Modelled from the spec: the base framework's
`self.node_summed_loads[str(node.label)]`, the node's "summed loads" — the
per-timestep sum over the node's characteristic side, the inflows for
inflow-characterized components (the `Sink`s) and the outflows otherwise
(which is why `CapacityResultier.__init__` records the two component
tuples for the base class). -/
def summedLoads (es : EnergySystem) (node : Node) : List ℚ :=
  if node.kind.inflowCharacterized then
    pointwiseSum ((inputLabels es node).map fun s => flowSeq es s node.label.name)
  else
    pointwiseSum ((outputLabels es node).map fun t => flowSeq es node.label.name t)

/-- A value of the capacity-shaped result dicts of `CapacityResultier`: either
a bare scalar or a `pd.Series` keyed by terminal label. -/
inductive ResVal where
  | scalar (c : CapVal)
  | series (s : List (String × ℚ))
deriving DecidableEq, Repr

/-- Reads the reported value of one terminal out of a `ResVal`: a series is
looked up by terminal label, a bare number answers for the single terminal,
and the variable-capacity sentinel carries no per-terminal number. -/
def ResVal.atTerminal : ResVal → String → Option ℚ
  | .scalar (.val q), _ => some q
  | .scalar .sentinel, _ => none
  | .series s, t => alookup s t

/-- `_map_installed_capacities`, inflow branch, body of the loop over
`node.inputs`: investment flows report `scalars.get(((inflow, node),
"invest"), 0) + inv_obj.existing`; otherwise `nominal_value` when present
(`getattr` fallback `esn_defs["variable_capacity"]`); otherwise
`max(self.node_inflows[...][...])` — Python `max` raises on an empty
series (`none`). -/
def sinkFlowCap (es : EnergySystem) (node : Node) (src : String) (f : Flow) :
    Option ℚ :=
  match f.investment with
  | some inv =>
      some ((alookup es.invest_scalars (src, some node.label.name)).getD 0
        + inv.existing)
  | none =>
      match f.nominal_value with
      | some q => some q
      | none => (nodeInflowSeries es node src).max?

/-- `_map_installed_capacities`, outflow branch, body of the loop over
`node.outputs`: as the inflow branch, except that the inference from the
observed outflow is guarded — an empty series yields `0` ("account for
unused storages") instead of calling `max`. -/
def outflowFlowCap (es : EnergySystem) (node : Node) (tgt : String) (f : Flow) :
    Option ℚ :=
  match f.investment with
  | some inv =>
      some ((alookup es.invest_scalars (node.label.name, some tgt)).getD 0
        + inv.existing)
  | none =>
      match f.nominal_value with
      | some q => some q
      | none =>
          let s := nodeOutflowSeries es node tgt
          if s.isEmpty then some 0 else s.max?

/-- Runs a per-flow capacity rule over a node's terminal flows, building the
`node_inst_cap_dict` entries in iteration order; a raised exception aborts. -/
def flowEntries (g : String → Flow → Option ℚ) :
    List (String × Flow) → Option (List (String × ℚ))
  | [] => some []
  | (t, f) :: rest => do
    let c ← g t f
    let r ← flowEntries g rest
    pure ((t, c) :: r)

/-- The shaping shared by the three capacity-like dicts: more than one
terminal yields `pd.Series(node_inst_cap_dict)`, otherwise
`tuple(node_inst_cap_dict.values())[0]` — a bare scalar, and an IndexError
(`none`) when the dict is empty. -/
def shapeResult (entries : List (String × ℚ)) (terminalCount : Nat) :
    Option ResVal :=
  if terminalCount > 1 then some (.series entries)
  else
    match entries with
    | [] => none
    | e :: _ => some (.scalar (.val e.2))

/-- `_map_installed_capacities`, one node.  The branches follow the isinstance
chain: inflow-characterized components (`Sink`), outflow-characterized
components (`Transformer`, `Source`, `OffsetTransformer`,
`ExtractionTurbineCHP`, `GenericCHP`), `Bus`/`Link` (variable capacity
sentinel), `GenericStorage` (investment result
`scalars[((node, None), "invest")]` plus existing, else
`nominal_storage_capacity`). -/
def instCapOfNode (es : EnergySystem) (node : Node) : Option ResVal :=
  match node.kind with
  | .sink => do
      let entries ← flowEntries (sinkFlowCap es node) (inputFlows es node)
      shapeResult entries (inputFlows es node).length
  | .transformer | .source | .offsetTransformer | .extractionTurbineCHP
  | .genericCHP => do
      let entries ← flowEntries (outflowFlowCap es node) (outputFlows es node)
      shapeResult entries (outputFlows es node).length
  | .bus | .link => some (.scalar .sentinel)
  | .genericStorage =>
      match node.investment with
      | some inv =>
          (alookup es.invest_scalars (node.label.name, none)).map fun a =>
            .scalar (.val (a + inv.existing))
      | none => some (.scalar (.val node.nominal_storage_capacity))

/-- `CapacityResultier._map_installed_capacities`. -/
def mapInstalledCapacities (es : EnergySystem) :
    Option (List (String × ResVal)) :=
  buildMap (instCapOfNode es) es.nodes

/-- `_map_original_capacities`, body of both terminal loops (the code is
identical on the inflow and outflow side): `inv_obj.existing` for investment
flows, else `nominal_value` when present, else `0` (the fallback on the
variable-capacity default occurred). -/
def origFlowCap (f : Flow) : ℚ :=
  match f.investment with
  | some inv => inv.existing
  | none =>
      match f.nominal_value with
      | some q => q
      | none => 0

/-- `CapacityResultier._map_original_capacities`, one node. -/
def origCapOfNode (es : EnergySystem) (node : Node) : Option ResVal :=
  match node.kind with
  | .sink =>
      shapeResult ((inputFlows es node).map fun p => (p.1, origFlowCap p.2))
        (inputFlows es node).length
  | .transformer | .source | .offsetTransformer | .extractionTurbineCHP
  | .genericCHP =>
      shapeResult ((outputFlows es node).map fun p => (p.1, origFlowCap p.2))
        (outputFlows es node).length
  | .bus | .link => some (.scalar .sentinel)
  | .genericStorage =>
      some (.scalar (.val
        (match node.investment with
         | some inv => inv.existing
         | none => node.nominal_storage_capacity)))

/-- `CapacityResultier._map_original_capacities`. -/
def mapOriginalCapacities (es : EnergySystem) :
    Option (List (String × ResVal)) :=
  buildMap (origCapOfNode es) es.nodes

/-- `_map_expansion_costs`, body of both terminal loops: `inv_obj.ep_costs`
for investment flows, else `esn_defs["expansion_costs"]`. -/
def expFlowCost (f : Flow) : ℚ :=
  match f.investment with
  | some inv => inv.ep_costs
  | none => esn_expansion_costs

/-- `CapacityResultier._map_expansion_costs`, one node.  Characterized nodes
shape like the capacity dicts; a `GenericStorage` reports
`node.investment.ep_costs` or the default; every other node falls into the
final `else` reporting the default. -/
def expCostOfNode (es : EnergySystem) (node : Node) : Option ResVal :=
  match node.kind with
  | .sink =>
      shapeResult ((inputFlows es node).map fun p => (p.1, expFlowCost p.2))
        (inputFlows es node).length
  | .transformer | .source | .offsetTransformer | .extractionTurbineCHP
  | .genericCHP =>
      shapeResult ((outputFlows es node).map fun p => (p.1, expFlowCost p.2))
        (outputFlows es node).length
  | .genericStorage =>
      some (.scalar (.val
        (match node.investment with
         | some inv => inv.ep_costs
         | none => esn_expansion_costs)))
  | .bus | .link => some (.scalar (.val esn_expansion_costs))

/-- `CapacityResultier._map_expansion_costs`. -/
def mapExpansionCosts (es : EnergySystem) : Option (List (String × ResVal)) :=
  buildMap (expCostOfNode es) es.nodes

/-- `views.node(results["main"], node).get("sequences")[((node, None),
"storage_content")]` — the state-of-charge series of a storage; a missing
entry raises (subscripting `None` / KeyError). -/
def socOfStorage (es : EnergySystem) (node : Node) : Option (List ℚ) :=
  alookup es.soc node.label.name

/-- Loop of `StorageResultier._map_states_of_charge`: one entry per
`GenericStorage` node. -/
def socEntries (es : EnergySystem) : List Node → Option (List (String × List ℚ))
  | [] => some []
  | n :: rest =>
    if n.kind = .genericStorage then do
      let s ← socOfStorage es n
      let r ← socEntries es rest
      pure ((n.label.name, s) :: r)
    else socEntries es rest

/-- `StorageResultier._map_states_of_charge` (the `node_soc` mapping). -/
def mapStatesOfCharge (es : EnergySystem) :
    Option (List (String × List ℚ)) :=
  socEntries es es.nodes

/-- A value of the characteristic-value dict: a number, a `pd.Series` keyed by
terminal label, or the tessif default `esn_defs["characteristic_value"]`
reported for variable-capacity nodes. -/
inductive CharVal where
  | scalar (q : ℚ)
  | series (s : List (String × ℚ))
  | dfault
deriving DecidableEq, Repr

/-- `_map_characteristic_values`, the `characteristic_mean` of the scalar
branch: the mean of the electrical-output column for a `GenericCHP`
(`list(node.electrical_output)[0]`, an IndexError when empty, then a
`self._outflows[...]` column lookup), the mean of
`StorageResultier(optimized_es).node_soc[str(node.label)]` for a
`GenericStorage` (building the whole soc map first, as the code instantiates
the resultier), and the mean of the summed loads for every other node. -/
def characteristicMean (es : EnergySystem) (node : Node) : Option ℚ :=
  match node.kind with
  | .genericCHP => do
      let tgt ← node.electrical_output.head?
      let col ← alookup (outflowCols es node) tgt
      pure (seriesMean col)
  | .genericStorage => do
      let socs ← mapStatesOfCharge es
      let s ← alookup socs node.label.name
      pure (seriesMean s)
  | _ => some (seriesMean (summedLoads es node))

/-- `_map_characteristic_values`, one node, reading the already-built
installed-capacity dict `cm`:

* a scalar non-sentinel capacity first computes `characteristic_mean` (which
  can raise), then reports `0` for capacity `0` and `mean / capacity`
  otherwise;
* the sentinel reports the default characteristic value;
* a Series capacity (`isinstance(inst_cap, abc.Iterable)`) reports a Series:
  per terminal `idx` with capacity `cap` (`inst_cap.fillna(0)`, the identity
  here as the model has no NaN), `characteristic_mean[idx] / cap` — a KeyError
  when `idx` is no column of `self._outflows[label].mean()` — for `cap ≠ 0`
  and `0` otherwise (the closing `fillna(0)` is again the identity). -/
def charValOfNode (es : EnergySystem) (cm : List (String × ResVal))
    (node : Node) : Option CharVal :=
  match alookup cm node.label.name with
  | none => none
  | some (.scalar .sentinel) => some .dfault
  | some (.scalar (.val q)) => do
      let mean ← characteristicMean es node
      if q = 0 then pure (.scalar 0) else pure (.scalar (mean / q))
  | some (.series s) =>
      (optMapList (fun p =>
        if p.2 ≠ 0 then
          (alookup (outflowMeans es node) p.1).map fun mean => (p.1, mean / p.2)
        else some (p.1, (0 : ℚ))) s).map CharVal.series

/-- `CapacityResultier._map_characteristic_values` (and the
`node_characteristic_value` property, which returns it unchanged): built after
and over `_map_installed_capacities`. -/
def mapCharacteristicValues (es : EnergySystem) :
    Option (List (String × CharVal)) := do
  let cm ← mapInstalledCapacities es
  buildMap (charValOfNode es cm) es.nodes

/-- `FlowResultier._map_specific_emissions`: per `(inflow, node)` pair the
value `getattr(flows()[(inflow, node)], "emissions", 0)`. -/
def mapSpecificEmissions (es : EnergySystem) :
    List ((String × String) × ℚ) :=
  es.nodes.flatMap fun n =>
    (inputFlows es n).map fun p => ((p.1, n.label.name), p.2.emissions.getD 0)

/-- `_map_specific_flow_costs`, one flow: the code evaluates
`getattr(flow, "variable_costs", 0)[0]`.  When the attribute is present it is
a sequence and the first element is taken (IndexError on an empty one); when
it is absent the `getattr` default `0` is subscripted — `0[0]` raises a
TypeError, so there is no `0` fallback (`none`). -/
def specificFlowCostOf (f : Flow) : Option ℚ :=
  match f.variable_costs with
  | some l => l.head?
  | none => none

/-- Loop body of `FlowResultier._map_specific_flow_costs` for one node. -/
def flowCostEntries (es : EnergySystem) (n : Node) :
    Option (List ((String × String) × ℚ)) :=
  optMapList (fun p =>
    (specificFlowCostOf p.2).map fun c => ((p.1, n.label.name), c))
    (inputFlows es n)

/-- Outer loop of `FlowResultier._map_specific_flow_costs`. -/
def flowCostGo (es : EnergySystem) :
    List Node → Option (List ((String × String) × ℚ))
  | [] => some []
  | n :: rest => do
    let e ← flowCostEntries es n
    let r ← flowCostGo es rest
    pure (e ++ r)

/-- `FlowResultier._map_specific_flow_costs`. -/
def mapSpecificFlowCosts (es : EnergySystem) :
    Option (List ((String × String) × ℚ)) :=
  flowCostGo es es.nodes

/-- Appends a member to a `defaultdict(list)` group, keeping first-insertion
key order. -/
def appendGroup (acc : List (String × List String)) (k v : String) :
    List (String × List String) :=
  match acc with
  | [] => [(k, [v])]
  | (k', vs) :: rest =>
      if k' = k then (k', vs ++ [v]) :: rest
      else (k', vs) :: appendGroup rest k v

/-- The grouping pattern shared by the `NodeCategorizer` maps: each node's
name is appended to the group of its key. -/
def groupNodesBy (es : EnergySystem) (f : Node → String) :
    List (String × List String) :=
  es.nodes.foldl (fun acc n => appendGroup acc (f n) n.label.name) []

/-- `NodeCategorizer._map_node_sectors`: the label's `sector` when the
attribute exists, else the `"Unspecified"` group. -/
def mapNodeSectors (es : EnergySystem) : List (String × List String) :=
  groupNodesBy es fun n => n.label.sector.getD "Unspecified"

/-- `NodeCategorizer._map_node_regions`. -/
def mapNodeRegions (es : EnergySystem) : List (String × List String) :=
  groupNodesBy es fun n => n.label.region.getD "Unspecified"

/-- `NodeCategorizer._map_node_types`. -/
def mapNodeTypes (es : EnergySystem) : List (String × List String) :=
  groupNodesBy es fun n => n.label.node_type.getD "Unspecified"

/-- `NodeCategorizer._map_node_energy_carriers`, first component (the grouped
dict; the second returned dict maps each node to its carrier or
`"Unspecified"`). -/
def mapNodeCarrierGroups (es : EnergySystem) : List (String × List String) :=
  groupNodesBy es fun n => n.label.carrier.getD "Unspecified"

/-- `NodeCategorizer._map_node_energy_carriers`, second component. -/
def mapNodeEnergyCarriers (es : EnergySystem) : List (String × String) :=
  es.nodes.map fun n => (n.label.name, n.label.carrier.getD "Unspecified")

/-- `_map_node_coordinates`, one node.  The guard tests
`hasattr(node.label, "latitude")` (twice — `longitude` is never tested): with
a latitude present the code builds `Coordinates(label.latitude,
label.longitude)`, raising an AttributeError when `longitude` is absent;
without a latitude it falls back to `Coordinates(None, None)`. -/
def coordOfNode (n : Node) : Option (Option ℚ × Option ℚ) :=
  match n.label.latitude with
  | some la =>
      match n.label.longitude with
      | some lo => some (some la, some lo)
      | none => none
  | none => some (none, none)

/-- `NodeCategorizer._map_node_coordinates`. -/
def mapNodeCoordinates (es : EnergySystem) :
    Option (List (String × (Option ℚ × Option ℚ))) :=
  buildMap coordOfNode es.nodes

/-- Stated from claim C1's words (not from the code): the installed capacity
of one flow `src → tgt` is the optimized investment result plus the
investment's existing capacity when the flow carries an investment object;
otherwise the flow's explicit `nominal_value` when present; otherwise the
maximum of the observed flow time series for that edge. -/
def specInstalledCapOfFlow (es : EnergySystem) (src tgt : String) (f : Flow) :
    Option ℚ :=
  match f.investment with
  | some inv =>
      some ((alookup es.invest_scalars (src, some tgt)).getD 0 + inv.existing)
  | none =>
      match f.nominal_value with
      | some q => some q
      | none => (flowSeq es src tgt).max?

/-- Stated from claim C1's words: a `GenericStorage` reports the invest result
plus existing capacity when investing, else `nominal_storage_capacity`. -/
def specStorageInstalledCap (es : EnergySystem) (node : Node) : Option ℚ :=
  match node.investment with
  | some inv =>
      (alookup es.invest_scalars (node.label.name, none)).map fun a =>
        a + inv.existing
  | none => some node.nominal_storage_capacity

/-- Stated from claim C4's words: the original (pre-optimization) capacity of
one flow is exactly the investment's existing capacity when the flow carries
an investment object (the optimized invest result is excluded); otherwise the
flow's `nominal_value` when present, and `0` when no nominal value was set. -/
def specOriginalCapOfFlow (f : Flow) : ℚ :=
  match f.investment with
  | some inv => inv.existing
  | none =>
      match f.nominal_value with
      | some q => q
      | none => 0

/-- The relevant terminal flows of a characterized node: the inflows of an
inflow-characterized node, the outflows of an outflow-characterized one
(statement helper for the shape claims). -/
def terminalFlows (es : EnergySystem) (node : Node) : List (String × Flow) :=
  if node.kind.inflowCharacterized then inputFlows es node
  else outputFlows es node

/-- Reading one terminal's reported capacity-like value out of a node-keyed
result dict (statement helper). -/
def reportedTerminal (m : List (String × ResVal)) (nodeName t : String) :
    Option ℚ :=
  (alookup m nodeName).bind fun rv => rv.atTerminal t

/-- Whether a `ResVal` is a bare number (neither a Series nor the sentinel);
statement helper for the shape claims. -/
def ResVal.isBareScalar : ResVal → Bool
  | .scalar (.val _) => true
  | _ => false

/-- The terminal labels of a Series-shaped `ResVal` (statement helper). -/
def ResVal.seriesKeys : ResVal → Option (List String)
  | .series s => some (s.map Prod.fst)
  | _ => none

/-! Concrete optimized systems used to exercise the theorems.  `esW` is a
small four-node system (source `S` → bus `B` → sink `D`, plus a storage `G`
on the bus): the `S → B` flow has a nominal value, the `B → D` flow and the
storage carry investment objects with optimization results. -/

/-- Witness system: the source. -/
def nodeS : Node := Node.plain "S" .source

/-- Witness system: the bus. -/
def nodeB : Node := Node.plain "B" .bus

/-- Witness system: the sink. -/
def nodeD : Node := Node.plain "D" .sink

/-- Witness system: the storage, investing (existing 2, ep_costs 7). -/
def nodeG : Node := ⟨Uid.plain "G", .genericStorage, some ⟨2, 7⟩, 0, []⟩

/-- Witness system: flow `S → B`, nominal value 10. -/
def flowSB : Flow := ⟨none, some 10, some [1, 1], some 3⟩

/-- Witness system: flow `B → D`, investment (existing 2, ep_costs 7), no
emissions attribute. -/
def flowBD : Flow := ⟨some ⟨2, 7⟩, none, some [0], none⟩

/-- Witness system: flow `B → G`, nominal value 5. -/
def flowBG : Flow := ⟨none, some 5, some [0], none⟩

/-- Witness system: flow `G → B`, nominal value 5. -/
def flowGB : Flow := ⟨none, some 5, some [0], none⟩

/-- The witness system. -/
def esW : EnergySystem :=
  ⟨[nodeS, nodeB, nodeD, nodeG],
   [(("S", "B"), flowSB), (("B", "D"), flowBD), (("B", "G"), flowBG),
    (("G", "B"), flowGB)],
   [(("S", "B"), [3, 5]), (("B", "D"), [4, 4]), (("B", "G"), [0, 1]),
    (("G", "B"), [1, 2])],
   [(("B", some "D"), 6), (("G", none), 4)],
   [("G", [2, 3])]⟩

/-- Two-inflow sink system: sources `A` and `C` both feed sink `D`, both
flows with explicit nominal values, so `D`'s installed capacity is a
two-terminal Series. -/
def esTwoInflowSink : EnergySystem :=
  ⟨[Node.plain "A" .source, Node.plain "C" .source, Node.plain "D" .sink],
   [(("A", "D"), ⟨none, some 5, some [0], none⟩),
    (("C", "D"), ⟨none, some 7, some [0], none⟩)],
   [(("A", "D"), [1, 2]), (("C", "D"), [3, 4])],
   [], []⟩

/-- A system whose single flow object lacks the `variable_costs` attribute. -/
def esNoVarCosts : EnergySystem :=
  ⟨[Node.plain "A" .source, Node.plain "B" .sink],
   [(("A", "B"), ⟨none, none, none, none⟩)],
   [(("A", "B"), [1, 1])], [], []⟩

/-- A transformer `T` without investment and nominal value whose outflow has
no observed series (plus a bus and a nominal-valued sink, keeping the rest of
the map total). -/
def esEmptyOutflow : EnergySystem :=
  ⟨[Node.plain "T" .transformer, Node.plain "B" .bus, Node.plain "D" .sink],
   [(("T", "B"), ⟨none, none, some [0], none⟩),
    (("B", "D"), ⟨none, some 5, some [0], none⟩)],
   [], [], []⟩

/-- A sink `D` without investment and nominal value whose observed inflow
series is empty. -/
def esEmptyInflowSink : EnergySystem :=
  ⟨[Node.plain "B" .bus, Node.plain "D" .sink],
   [(("B", "D"), ⟨none, none, some [0], none⟩)],
   [], [], []⟩

/-! Helper lemmas about the embedding's building blocks. -/

theorem alookup_map_of_mem {κ α β : Type} [DecidableEq κ]
    (key : α → κ) (h : α → β) {l : List α} {a : α}
    (ha : a ∈ l) (hnd : (l.map key).Nodup) :
    alookup (l.map fun x => (key x, h x)) (key a) = some (h a) := by
  induction l with
  | nil => cases ha
  | cons x xs ih =>
    rcases List.mem_cons.mp ha with rfl | hmem
    · simp [alookup]
    · have hx : key x ≠ key a := by
        intro he
        have : key a ∈ xs.map key := List.mem_map_of_mem key hmem
        rw [← he] at this
        exact (List.nodup_cons.mp (by simpa using hnd)).1 this
      simp only [List.map_cons, alookup, hx, if_neg hx]
      exact ih hmem (List.nodup_cons.mp (by simpa using hnd)).2

theorem buildMap_eq_some {β : Type} {g : Node → Option β} {nodes : List Node}
    {m : List (String × β)} {n : Node}
    (hm : buildMap g nodes = some m) (hmem : n ∈ nodes) :
    ∃ v, g n = some v := by
  induction nodes generalizing m with
  | nil => cases hmem
  | cons x xs ih =>
    rcases hv : g x with _ | v
    · rw [buildMap, hv] at hm; cases hm
    · rcases hr : buildMap g xs with _ | r
      · rw [buildMap, hv, hr] at hm; cases hm
      · rcases List.mem_cons.mp hmem with rfl | hmem'
        · exact ⟨v, hv⟩
        · exact ih hr hmem'

theorem buildMap_lookup {β : Type} {g : Node → Option β} {nodes : List Node}
    {m : List (String × β)} {n : Node}
    (hm : buildMap g nodes = some m) (hmem : n ∈ nodes)
    (hnd : (nodes.map fun x => x.label.name).Nodup) :
    alookup m n.label.name = g n := by
  induction nodes generalizing m with
  | nil => cases hmem
  | cons x xs ih =>
    rcases hv : g x with _ | v
    · rw [buildMap, hv] at hm; cases hm
    · rcases hr : buildMap g xs with _ | r
      · rw [buildMap, hv, hr] at hm; cases hm
      · rw [buildMap, hv, hr] at hm
        have hm2 : (x.label.name, v) :: r = m := Option.some.inj hm
        subst hm2
        rcases List.mem_cons.mp hmem with rfl | hmem'
        · simp [alookup, hv]
        · have hx : x.label.name ≠ n.label.name := by
            intro he
            have : n.label.name ∈ xs.map fun y => y.label.name :=
              List.mem_map_of_mem _ hmem'
            rw [← he] at this
            exact (List.nodup_cons.mp (by simpa using hnd)).1 this
          simp only [alookup, if_neg hx]
          exact ih hr hmem' (List.nodup_cons.mp (by simpa using hnd)).2

theorem buildMap_keys {β : Type} {g : Node → Option β} {nodes : List Node}
    {m : List (String × β)} (hm : buildMap g nodes = some m) :
    m.map Prod.fst = nodes.map fun n => n.label.name := by
  induction nodes generalizing m with
  | nil => rw [buildMap] at hm; cases hm; rfl
  | cons x xs ih =>
    rcases hv : g x with _ | v
    · rw [buildMap, hv] at hm; cases hm
    · rcases hr : buildMap g xs with _ | r
      · rw [buildMap, hv, hr] at hm; cases hm
      · rw [buildMap, hv, hr] at hm
        have hm2 : (x.label.name, v) :: r = m := Option.some.inj hm
        subst hm2
        simpa using ih hr

theorem buildMap_none {β : Type} {g : Node → Option β} {nodes : List Node}
    {n : Node} (hmem : n ∈ nodes) (hn : g n = none) :
    buildMap g nodes = none := by
  induction nodes with
  | nil => cases hmem
  | cons x xs ih =>
    rcases List.mem_cons.mp hmem with rfl | hmem'
    · rw [buildMap, hn]; rfl
    · rw [buildMap, ih hmem']
      rcases g x with _ | v <;> rfl

theorem flowEntries_keys {g : String → Flow → Option ℚ}
    {l : List (String × Flow)} {e : List (String × ℚ)}
    (he : flowEntries g l = some e) :
    e.map Prod.fst = l.map Prod.fst := by
  induction l generalizing e with
  | nil => rw [flowEntries] at he; cases he; rfl
  | cons x xs ih =>
    rcases x with ⟨a, b⟩
    rcases hv : g a b with _ | v
    · rw [flowEntries, hv] at he; cases he
    · rcases hr : flowEntries g xs with _ | r
      · rw [flowEntries, hv, hr] at he; cases he
      · rw [flowEntries, hv, hr] at he
        have he2 : (a, v) :: r = e := Option.some.inj he
        subst he2
        simpa using ih hr

theorem flowEntries_length {g : String → Flow → Option ℚ}
    {l : List (String × Flow)} {e : List (String × ℚ)}
    (he : flowEntries g l = some e) :
    e.length = l.length := by
  have := flowEntries_keys he
  calc e.length = (e.map Prod.fst).length := by simp
    _ = (l.map Prod.fst).length := by rw [this]
    _ = l.length := by simp

theorem flowEntries_lookup {g : String → Flow → Option ℚ}
    {l : List (String × Flow)} {e : List (String × ℚ)} {t : String} {f : Flow}
    (he : flowEntries g l = some e) (hmem : (t, f) ∈ l)
    (hnd : (l.map Prod.fst).Nodup) :
    ∃ c, g t f = some c ∧ alookup e t = some c := by
  induction l generalizing e with
  | nil => cases hmem
  | cons x xs ih =>
    rcases x with ⟨a, b⟩
    rcases hv : g a b with _ | v
    · rw [flowEntries, hv] at he
      cases he
    · rcases hr : flowEntries g xs with _ | r
      · rw [flowEntries, hv, hr] at he
        cases he
      · rw [flowEntries, hv, hr] at he
        have he2 : (a, v) :: r = e := Option.some.inj he
        subst he2
        rcases List.mem_cons.mp hmem with he' | hmem'
        · injection he' with h1 h2
          subst h1
          subst h2
          exact ⟨v, hv, by simp [alookup]⟩
        · have hx : a ≠ t := by
            intro hxe
            have : t ∈ xs.map Prod.fst := by
              have := List.mem_map_of_mem Prod.fst hmem'
              simpa using this
            rw [← hxe] at this
            exact (List.nodup_cons.mp (by simpa using hnd)).1 this
          rcases ih hr hmem' (List.nodup_cons.mp (by simpa using hnd)).2 with
            ⟨c, hc1, hc2⟩
          exact ⟨c, hc1, by simp only [alookup, if_neg hx, hc2]⟩

theorem flowEntries_none {g : String → Flow → Option ℚ}
    {l : List (String × Flow)} {t : String} {f : Flow}
    (hmem : (t, f) ∈ l) (hn : g t f = none) :
    flowEntries g l = none := by
  induction l with
  | nil => cases hmem
  | cons x xs ih =>
    rcases x with ⟨a, b⟩
    rcases List.mem_cons.mp hmem with he | hmem'
    · injection he with h1 h2
      subst h1
      subst h2
      rw [flowEntries, hn]
      rfl
    · rw [flowEntries, ih hmem']
      rcases g a b with _ | v <;> rfl

theorem shapeResult_atTerminal {entries : List (String × ℚ)} {cnt : Nat}
    {rv : ResVal} {t : String} {v : ℚ}
    (hs : shapeResult entries cnt = some rv) (hlen : entries.length = cnt)
    (hl : alookup entries t = some v) :
    rv.atTerminal t = some v := by
  by_cases hc : cnt > 1
  · unfold shapeResult at hs
    rw [if_pos hc] at hs
    cases hs
    exact hl
  · unfold shapeResult at hs
    rw [if_neg hc] at hs
    cases entries with
    | nil => cases hs
    | cons e rest =>
      cases rest with
      | cons e2 r2 =>
        exfalso
        simp only [List.length_cons] at hlen
        omega
      | nil =>
        have hs2 : ResVal.scalar (.val e.2) = rv := Option.some.inj hs
        subst hs2
        rw [alookup] at hl
        by_cases ht : e.1 = t
        · rw [if_pos ht] at hl
          have hv2 : e.2 = v := Option.some.inj hl
          subst hv2
          rfl
        · rw [if_neg ht] at hl
          cases hl

theorem optMapList_none {α β : Type} {g : α → Option β} {l : List α} {a : α}
    (hmem : a ∈ l) (hn : g a = none) : optMapList g l = none := by
  induction l with
  | nil => cases hmem
  | cons x xs ih =>
    rcases List.mem_cons.mp hmem with rfl | hmem'
    · rw [optMapList, hn]; rfl
    · rw [optMapList, ih hmem']
      cases g x <;> rfl

theorem optMapList_eq_map {α β : Type} {g : α → Option β} {h : α → β}
    {l : List α} (hall : ∀ a ∈ l, g a = some (h a)) :
    optMapList g l = some (l.map h) := by
  induction l with
  | nil => rfl
  | cons x xs ih =>
    rw [optMapList, hall x (List.mem_cons_self x xs),
      ih fun a ha => hall a (List.mem_cons_of_mem x ha)]
    rfl

theorem optMapList_map_eq {α β γ : Type} {g : α → Option β} {l : List α}
    {m : List β} (hm : optMapList g l = some m) (key : β → γ) (keyf : α → γ)
    (hk : ∀ a b, g a = some b → key b = keyf a) :
    m.map key = l.map keyf := by
  induction l generalizing m with
  | nil => rw [optMapList] at hm; cases hm; rfl
  | cons x xs ih =>
    rcases hv : g x with _ | v
    · rw [optMapList, hv] at hm; cases hm
    · rcases hr : optMapList g xs with _ | r
      · rw [optMapList, hv, hr] at hm; cases hm
      · rw [optMapList, hv, hr] at hm
        have hm2 : v :: r = m := Option.some.inj hm
        subst hm2
        simp only [List.map_cons, hk x v hv, ih hr]

theorem flowCostEntries_keys {es : EnergySystem} {n : Node}
    {e : List ((String × String) × ℚ)} (he : flowCostEntries es n = some e) :
    e.map Prod.fst = (inputFlows es n).map fun p => (p.1, n.label.name) := by
  refine optMapList_map_eq he Prod.fst _ ?_
  intro a b hb
  rcases Option.map_eq_some'.mp hb with ⟨c, _, rfl⟩
  rfl

theorem flowCostGo_keys {es : EnergySystem} {nodes : List Node}
    {m : List ((String × String) × ℚ)} (hm : flowCostGo es nodes = some m) :
    m.map Prod.fst =
      nodes.flatMap fun n => (inputFlows es n).map fun p =>
        (p.1, n.label.name) := by
  induction nodes generalizing m with
  | nil => rw [flowCostGo] at hm; cases hm; rfl
  | cons x xs ih =>
    rcases hv : flowCostEntries es x with _ | v
    · rw [flowCostGo, hv] at hm; cases hm
    · rcases hr : flowCostGo es xs with _ | r
      · rw [flowCostGo, hv, hr] at hm; cases hm
      · rw [flowCostGo, hv, hr] at hm
        have hm2 : v ++ r = m := Option.some.inj hm
        subst hm2
        simp only [List.map_append, List.flatMap_cons, flowCostEntries_keys hv,
          ih hr]

theorem flowCostGo_none {es : EnergySystem} {nodes : List Node} {n : Node}
    (hmem : n ∈ nodes) (hn : flowCostEntries es n = none) :
    flowCostGo es nodes = none := by
  induction nodes with
  | nil => cases hmem
  | cons x xs ih =>
    rcases List.mem_cons.mp hmem with rfl | hmem'
    · rw [flowCostGo, hn]; rfl
    · rw [flowCostGo, ih hmem']
      cases flowCostEntries es x <;> rfl

theorem alookup_appendGroup_self (acc : List (String × List String))
    (k v : String) :
    alookup (appendGroup acc k v) k = some ((alookup acc k).getD [] ++ [v]) := by
  induction acc with
  | nil => simp [appendGroup, alookup]
  | cons p rest ih =>
    rcases p with ⟨k', vs⟩
    by_cases hk : k' = k
    · subst hk
      simp [appendGroup, alookup]
    · simp only [appendGroup, if_neg hk, alookup, ih]

theorem alookup_appendGroup_other (acc : List (String × List String))
    (k v k' : String) (hne : k ≠ k') :
    alookup (appendGroup acc k v) k' = alookup acc k' := by
  induction acc with
  | nil => simp [appendGroup, alookup, hne]
  | cons p rest ih =>
    rcases p with ⟨k2, vs⟩
    by_cases hk : k2 = k
    · subst hk
      simp only [appendGroup, if_pos rfl, alookup]
      rw [if_neg hne, if_neg hne]
    · simp only [appendGroup, if_neg hk, alookup]
      by_cases hk2 : k2 = k'
      · rw [if_pos hk2, if_pos hk2]
      · rw [if_neg hk2, if_neg hk2, ih]

theorem mem_group_append (acc : List (String × List String))
    (k v k' v' : String) (hmem : v ∈ (alookup acc k).getD []) :
    v ∈ (alookup (appendGroup acc k' v') k).getD [] := by
  by_cases hk : k' = k
  · subst hk
    rw [alookup_appendGroup_self]
    exact List.mem_append_left _ hmem
  · rw [alookup_appendGroup_other acc k' v' k hk]
    exact hmem

theorem mem_group_foldl (f : Node → String) (l : List Node)
    (acc : List (String × List String)) (n : Node)
    (h : n ∈ l ∨ n.label.name ∈ (alookup acc (f n)).getD []) :
    n.label.name ∈
      (alookup (l.foldl (fun a x => appendGroup a (f x) x.label.name) acc)
        (f n)).getD [] := by
  induction l generalizing acc with
  | nil =>
    rcases h with h | h
    · cases h
    · exact h
  | cons x xs ih =>
    rw [List.foldl_cons]
    rcases h with h | h
    · rcases List.mem_cons.mp h with rfl | hmem'
      · refine ih _ (Or.inr ?_)
        rw [alookup_appendGroup_self]
        exact List.mem_append_right _ (List.mem_singleton_self _)
      · exact ih _ (Or.inl hmem')
    · exact ih _ (Or.inr (mem_group_append acc (f n) n.label.name _ _ h))

theorem mem_groupNodesBy {es : EnergySystem} {n : Node} (f : Node → String)
    (hmem : n ∈ es.nodes) :
    n.label.name ∈ (alookup (groupNodesBy es f) (f n)).getD [] :=
  mem_group_foldl f es.nodes [] n (Or.inl hmem)

theorem inflowCharacterized_eq_sink {k : Component}
    (h : k.inflowCharacterized = true) : k = .sink := by
  cases k <;> first | rfl | cases h

theorem instCapOfNode_sink (es : EnergySystem) (node : Node)
    (hk : node.kind = .sink) :
    instCapOfNode es node =
      (flowEntries (sinkFlowCap es node) (inputFlows es node)).bind
        fun entries => shapeResult entries (inputFlows es node).length := by
  unfold instCapOfNode
  rw [hk]
  rfl

theorem instCapOfNode_outflow (es : EnergySystem) (node : Node)
    (hk : node.kind.outflowCharacterized = true) :
    instCapOfNode es node =
      (flowEntries (outflowFlowCap es node) (outputFlows es node)).bind
        fun entries => shapeResult entries (outputFlows es node).length := by
  unfold instCapOfNode
  cases hkind : node.kind <;> rw [hkind] at hk <;>
    first | rfl | exact absurd hk (by decide)

theorem origCapOfNode_sink (es : EnergySystem) (node : Node)
    (hk : node.kind = .sink) :
    origCapOfNode es node =
      shapeResult ((inputFlows es node).map fun p => (p.1, origFlowCap p.2))
        (inputFlows es node).length := by
  unfold origCapOfNode
  rw [hk]

theorem origCapOfNode_outflow (es : EnergySystem) (node : Node)
    (hk : node.kind.outflowCharacterized = true) :
    origCapOfNode es node =
      shapeResult ((outputFlows es node).map fun p => (p.1, origFlowCap p.2))
        (outputFlows es node).length := by
  unfold origCapOfNode
  cases hkind : node.kind <;> rw [hkind] at hk <;>
    first | rfl | exact absurd hk (by decide)

theorem expCostOfNode_sink (es : EnergySystem) (node : Node)
    (hk : node.kind = .sink) :
    expCostOfNode es node =
      shapeResult ((inputFlows es node).map fun p => (p.1, expFlowCost p.2))
        (inputFlows es node).length := by
  unfold expCostOfNode
  rw [hk]

theorem expCostOfNode_outflow (es : EnergySystem) (node : Node)
    (hk : node.kind.outflowCharacterized = true) :
    expCostOfNode es node =
      shapeResult ((outputFlows es node).map fun p => (p.1, expFlowCost p.2))
        (outputFlows es node).length := by
  unfold expCostOfNode
  cases hkind : node.kind <;> rw [hkind] at hk <;>
    first | rfl | exact absurd hk (by decide)

theorem sinkFlowCap_eq_spec (es : EnergySystem) (node : Node) (src : String)
    (f : Flow) :
    sinkFlowCap es node src f =
      specInstalledCapOfFlow es src node.label.name f := rfl

theorem outflowFlowCap_of_spec {es : EnergySystem} {node : Node} {tgt : String}
    {f : Flow} {v : ℚ}
    (h : specInstalledCapOfFlow es node.label.name tgt f = some v) :
    outflowFlowCap es node tgt f = some v := by
  unfold specInstalledCapOfFlow at h
  unfold outflowFlowCap
  rcases f with ⟨inv, nom, vc, em⟩
  rcases inv with _ | i
  · rcases nom with _ | q
    · simp only at h ⊢
      unfold nodeOutflowSeries
      rcases hs : flowSeq es node.label.name tgt with _ | ⟨a, l⟩
      · rw [hs] at h
        cases h
      · rw [hs] at h
        simpa using h
    · exact h
  · exact h

theorem origFlowCap_eq_spec (f : Flow) :
    origFlowCap f = specOriginalCapOfFlow f := rfl

theorem instCapOfNode_storage (es : EnergySystem) (node : Node)
    (hk : node.kind = .genericStorage) :
    instCapOfNode es node =
      match node.investment with
      | some inv =>
          (alookup es.invest_scalars (node.label.name, none)).map fun a =>
            .scalar (.val (a + inv.existing))
      | none => some (.scalar (.val node.nominal_storage_capacity)) := by
  unfold instCapOfNode
  rw [hk]

theorem origCapOfNode_buslink (es : EnergySystem) (node : Node)
    (hk : node.kind = .bus ∨ node.kind = .link) :
    origCapOfNode es node = some (.scalar .sentinel) := by
  unfold origCapOfNode
  rcases hk with hk | hk <;> rw [hk]

theorem origCapOfNode_storage (es : EnergySystem) (node : Node)
    (hk : node.kind = .genericStorage) :
    origCapOfNode es node =
      some (.scalar (.val
        (match node.investment with
         | some inv => inv.existing
         | none => node.nominal_storage_capacity))) := by
  unfold origCapOfNode
  rw [hk]

theorem charValOfNode_scalarVal {es : EnergySystem}
    {cm : List (String × ResVal)} {node : Node} {q : ℚ}
    (hq : alookup cm node.label.name = some (.scalar (.val q))) :
    charValOfNode es cm node =
      (characteristicMean es node).bind fun mean =>
        if q = 0 then some (.scalar 0) else some (.scalar (mean / q)) := by
  unfold charValOfNode
  rw [hq]
  rfl

theorem charValOfNode_sentinel {es : EnergySystem}
    {cm : List (String × ResVal)} {node : Node}
    (hq : alookup cm node.label.name = some (.scalar .sentinel)) :
    charValOfNode es cm node = some .dfault := by
  unfold charValOfNode
  rw [hq]

theorem charValOfNode_series {es : EnergySystem}
    {cm : List (String × ResVal)} {node : Node} {s : List (String × ℚ)}
    (hq : alookup cm node.label.name = some (.series s)) :
    charValOfNode es cm node =
      (optMapList (fun p =>
        if p.2 ≠ 0 then
          (alookup (outflowMeans es node) p.1).map fun mean => (p.1, mean / p.2)
        else some (p.1, (0 : ℚ))) s).map CharVal.series := by
  unfold charValOfNode
  rw [hq]

theorem shapeResult_shape {entries : List (String × ℚ)} {cnt : Nat}
    {rv : ResVal} (hs : shapeResult entries cnt = some rv)
    (hlen : entries.length = cnt) :
    (1 < cnt → rv.seriesKeys = some (entries.map Prod.fst)) ∧
    (cnt = 1 → rv.isBareScalar = true) := by
  by_cases hc : cnt > 1
  · unfold shapeResult at hs
    rw [if_pos hc] at hs
    have hrv : ResVal.series entries = rv := Option.some.inj hs
    subst hrv
    exact ⟨fun _ => rfl, fun h1 => by omega⟩
  · unfold shapeResult at hs
    rw [if_neg hc] at hs
    cases entries with
    | nil => cases hs
    | cons e rest =>
      have hrv : ResVal.scalar (.val e.2) = rv := by
        cases rest with
        | nil => exact Option.some.inj hs
        | cons e2 r2 =>
          exfalso
          simp only [List.length_cons] at hlen
          omega
      subst hrv
      exact ⟨fun h1 => absurd h1 hc, fun _ => rfl⟩

theorem inflow_cell_sign {q : ℚ} (hq : 0 ≤ q) :
    (((SFloat.ofRat q).neg).toNegZero).val ≤ 0 ∧
    ((((SFloat.ofRat q).neg).toNegZero).val = 0 →
      (((SFloat.ofRat q).neg).toNegZero).negZero = true) := by
  by_cases h : q = 0
  · have hval : ((SFloat.ofRat q).neg).toNegZero = ⟨0, true⟩ := by
      subst h
      unfold SFloat.ofRat SFloat.neg SFloat.toNegZero
      norm_num
    rw [hval]
    exact ⟨le_refl 0, fun _ => rfl⟩
  · have hneg : -q ≠ 0 := by simpa using h
    have hval : ((SFloat.ofRat q).neg).toNegZero = ⟨-q, false⟩ := by
      unfold SFloat.ofRat SFloat.neg SFloat.toNegZero
      simp [h, hneg]
    rw [hval]
    exact ⟨by simpa using hq, fun hz => absurd hz hneg⟩

theorem outflow_cell_sign {q : ℚ} (hq : 0 ≤ q) :
    0 ≤ ((SFloat.ofRat q).toPosZero).val ∧
    (((SFloat.ofRat q).toPosZero).val = 0 →
      ((SFloat.ofRat q).toPosZero).negZero = false) := by
  have hval : (SFloat.ofRat q).toPosZero = ⟨q, false⟩ := by
    unfold SFloat.ofRat SFloat.toPosZero
    by_cases h : q = 0
    · subst h
      simp
    · simp [h]
  rw [hval]
  exact ⟨hq, fun _ => rfl⟩

theorem shape_conclusion {name : String} {mm : List (String × ResVal)}
    {entries : List (String × ℚ)} {cnt : Nat} {rv : ResVal}
    {ks : List String}
    (hlk : alookup mm name = some rv)
    (hshape : shapeResult entries cnt = some rv)
    (hlen : entries.length = cnt)
    (hkeys : entries.map Prod.fst = ks) :
    (1 < cnt → (alookup mm name).bind ResVal.seriesKeys = some ks) ∧
    (cnt = 1 → (alookup mm name).map ResVal.isBareScalar = some true) := by
  have hs := shapeResult_shape hshape hlen
  constructor
  · intro hgt
    rw [hlk]
    rw [show ((some rv).bind ResVal.seriesKeys) = rv.seriesKeys from rfl,
      hs.1 hgt, hkeys]
  · intro heq
    rw [hlk]
    rw [show ((some rv).map ResVal.isBareScalar) =
      some rv.isBareScalar from rfl, hs.2 heq]

/-! The claims. -/

/-- C3: For every node in the solved network, each of the derived quantities —
load time series, installed capacity, original pre-optimization capacity,
expansion cost, and characteristic utilization value — is computed and exposed
with an entry under that node's name in the corresponding name-keyed
mapping. -/
theorem every_node_has_result_entries
    (es : EnergySystem) (node : Node) (hmem : node ∈ es.nodes)
    (mi mo mx : List (String × ResVal)) (mv : List (String × CharVal))
    (hmi : mapInstalledCapacities es = some mi)
    (hmo : mapOriginalCapacities es = some mo)
    (hmx : mapExpansionCosts es = some mx)
    (hmv : mapCharacteristicValues es = some mv) :
    node.label.name ∈ (mapLoads es).map Prod.fst ∧
    node.label.name ∈ mi.map Prod.fst ∧
    node.label.name ∈ mo.map Prod.fst ∧
    node.label.name ∈ mx.map Prod.fst ∧
    node.label.name ∈ mv.map Prod.fst := by
  have hname : node.label.name ∈ es.nodes.map fun n => n.label.name :=
    List.mem_map_of_mem _ hmem
  refine ⟨?_, ?_, ?_, ?_, ?_⟩
  · simpa [mapLoads, List.map_map, Function.comp] using hname
  · rw [buildMap_keys hmi]; exact hname
  · rw [buildMap_keys hmo]; exact hname
  · rw [buildMap_keys hmx]; exact hname
  · unfold mapCharacteristicValues at hmv
    rw [hmi] at hmv
    have hb : buildMap (charValOfNode es mi) es.nodes = some mv := hmv
    rw [buildMap_keys hb]; exact hname

/-- Witness for C3 at the bus `B` of the concrete system `esW`. -/
theorem every_node_has_result_entries_witness :
    "B" ∈ (mapLoads esW).map Prod.fst ∧
    "B" ∈ [("S", ResVal.scalar (.val 10)), ("B", ResVal.scalar .sentinel),
           ("D", ResVal.scalar (.val 8)),
           ("G", ResVal.scalar (.val 6))].map Prod.fst ∧
    "B" ∈ [("S", ResVal.scalar (.val 10)), ("B", ResVal.scalar .sentinel),
           ("D", ResVal.scalar (.val 2)),
           ("G", ResVal.scalar (.val 2))].map Prod.fst ∧
    "B" ∈ [("S", ResVal.scalar (.val 0)), ("B", ResVal.scalar (.val 0)),
           ("D", ResVal.scalar (.val 7)),
           ("G", ResVal.scalar (.val 7))].map Prod.fst ∧
    "B" ∈ [("S", CharVal.scalar (2/5)), ("B", CharVal.dfault),
           ("D", CharVal.scalar (1/2)),
           ("G", CharVal.scalar (5/12))].map Prod.fst :=
  every_node_has_result_entries esW nodeB (by decide) _ _ _ _
    (by norm_num +decide [mapInstalledCapacities, buildMap, instCapOfNode,
      flowEntries, inputFlows, outputFlows, esW, nodeS, nodeB, nodeD, nodeG,
      flowSB, flowBD, flowBG, flowGB, Node.plain, Uid.plain, alookup,
      sinkFlowCap, outflowFlowCap, shapeResult, flowSeq])
    (by decide)
    (by decide)
    (by norm_num +decide [mapCharacteristicValues, mapInstalledCapacities,
      buildMap, instCapOfNode, flowEntries, inputFlows, outputFlows, esW,
      nodeS, nodeB, nodeD, nodeG, flowSB, flowBD, flowBG, flowGB, Node.plain,
      Uid.plain, alookup, sinkFlowCap, outflowFlowCap, shapeResult, flowSeq,
      charValOfNode, characteristicMean, summedLoads, pointwiseSum, maxLen,
      seriesMean, outflowMeans, outflowCols, optMapList, mapStatesOfCharge,
      socEntries, socOfStorage, inputLabels, outputLabels,
      Component.inflowCharacterized, List.range, List.range.loop,
      List.getElem?_cons_zero, List.getElem?_cons_succ, Option.getD,
      Function.comp, List.filterMap_cons])

/-- C7 (amended): whenever an optional attribute is absent the mappings fall
back to a default instead of failing — a node whose label lacks a sector,
region, carrier or node_type attribute is grouped under "Unspecified", a node
whose label lacks a latitude gets coordinates (None, None) (longitude is never
tested by the guard), and a flow lacking an emissions attribute contributes
specific emissions 0 — except that a flow lacking a variable_costs attribute
does not contribute specific flow costs 0: the getattr default 0 is
subscripted with [0], so `_map_specific_flow_costs` raises a TypeError. -/
theorem attribute_fallback_rule
    (es : EnergySystem) (node : Node) (hmem : node ∈ es.nodes)
    (hnd : (es.nodes.map fun n => n.label.name).Nodup) :
    (node.label.sector = none →
      node.label.name ∈ (alookup (mapNodeSectors es) "Unspecified").getD []) ∧
    (node.label.region = none →
      node.label.name ∈ (alookup (mapNodeRegions es) "Unspecified").getD []) ∧
    (node.label.carrier = none →
      node.label.name ∈
        (alookup (mapNodeCarrierGroups es) "Unspecified").getD [] ∧
      alookup (mapNodeEnergyCarriers es) node.label.name =
        some "Unspecified") ∧
    (node.label.node_type = none →
      node.label.name ∈ (alookup (mapNodeTypes es) "Unspecified").getD []) ∧
    (node.label.latitude = none →
      ∀ mc, mapNodeCoordinates es = some mc →
        alookup mc node.label.name = some (none, none)) ∧
    (∀ src f, (src, f) ∈ inputFlows es node → f.emissions = none →
      ((src, node.label.name), (0 : ℚ)) ∈ mapSpecificEmissions es) ∧
    (∀ src f, (src, f) ∈ inputFlows es node → f.variable_costs = none →
      mapSpecificFlowCosts es = none) := by
  refine ⟨?_, ?_, ?_, ?_, ?_, ?_, ?_⟩
  · intro h
    have hg := mem_groupNodesBy
      (fun n => n.label.sector.getD "Unspecified") hmem
    simp only [h, Option.getD_none] at hg
    exact hg
  · intro h
    have hg := mem_groupNodesBy
      (fun n => n.label.region.getD "Unspecified") hmem
    simp only [h, Option.getD_none] at hg
    exact hg
  · intro h
    constructor
    · have hg := mem_groupNodesBy
        (fun n => n.label.carrier.getD "Unspecified") hmem
      simp only [h, Option.getD_none] at hg
      exact hg
    · have hl := alookup_map_of_mem (fun n : Node => n.label.name)
        (fun n => n.label.carrier.getD "Unspecified") hmem hnd
      simp only [h, Option.getD_none] at hl
      exact hl
  · intro h
    have hg := mem_groupNodesBy
      (fun n => n.label.node_type.getD "Unspecified") hmem
    simp only [h, Option.getD_none] at hg
    exact hg
  · intro h mc hmc
    have hb : buildMap coordOfNode es.nodes = some mc := hmc
    have hl := buildMap_lookup hb hmem hnd
    rw [hl]
    unfold coordOfNode
    rw [h]
  · intro src f hmf he
    refine List.mem_flatMap.mpr ⟨node, hmem, ?_⟩
    have := List.mem_map_of_mem
      (fun p : String × Flow => ((p.1, node.label.name), p.2.emissions.getD 0))
      hmf
    simpa only [he, Option.getD_none] using this
  · intro src f hmf hv
    have hcost : specificFlowCostOf f = none := by
      unfold specificFlowCostOf
      rw [hv]
    have hent : flowCostEntries es node = none :=
      optMapList_none hmf (by simp [hcost])
    exact flowCostGo_none hmem hent

/-- C7 counterexample: in `esNoVarCosts` the single flow lacks the
`variable_costs` attribute; instead of the mapping falling back to a 0 cost,
the whole `_map_specific_flow_costs` construction raises (no mapping is
produced), because `getattr(flow, "variable_costs", 0)[0]` subscripts the
integer default. -/
theorem attribute_fallback_counterexample :
    mapSpecificFlowCosts esNoVarCosts = none := by decide

/-- Witness for C7 at the sink `D` of `esW` (plain label without sector or
latitude; its inflow `B → D` lacks the emissions attribute). -/
theorem attribute_fallback_rule_witness :
    "D" ∈ (alookup (mapNodeSectors esW) "Unspecified").getD [] ∧
    (("B", "D"), (0 : ℚ)) ∈ mapSpecificEmissions esW ∧
    alookup [("S", ((none : Option ℚ), (none : Option ℚ))),
             ("B", (none, none)), ("D", (none, none)), ("G", (none, none))]
      "D" = some (none, none) := by
  have h := attribute_fallback_rule esW nodeD (by decide) (by decide)
  exact ⟨h.1 rfl, h.2.2.2.2.2.1 "B" flowBD (by decide) rfl,
    h.2.2.2.2.1 rfl _ (by decide)⟩

/-- C8: the node-keyed result mappings use exactly `str(node.label)` of the
system's nodes as keys, and the edge-keyed mappings use exactly the Edge pairs
`(str(inflow label), str(node label))`, one per `(input, node)` pair over all
nodes (`_map_nodes` / `_map_edges`). -/
theorem result_mapping_keys (es : EnergySystem) :
    (mapLoads es).map Prod.fst = mapNodes es ∧
    (mapSpecificEmissions es).map Prod.fst = mapEdges es ∧
    (∀ m, mapSpecificFlowCosts es = some m → m.map Prod.fst = mapEdges es) ∧
    (∀ m, mapInstalledCapacities es = some m →
      m.map Prod.fst = mapNodes es) ∧
    (∀ m, mapOriginalCapacities es = some m →
      m.map Prod.fst = mapNodes es) ∧
    (∀ m, mapExpansionCosts es = some m → m.map Prod.fst = mapNodes es) ∧
    (∀ m, mapCharacteristicValues es = some m →
      m.map Prod.fst = mapNodes es) := by
  refine ⟨?_, ?_, ?_, ?_, ?_, ?_, ?_⟩
  · simp [mapLoads, mapNodes, List.map_map, Function.comp]
  · simp only [mapSpecificEmissions, mapEdges, List.map_flatMap,
      List.map_map]
    rfl
  · intro m hm
    exact flowCostGo_keys hm
  · intro m hm
    rw [buildMap_keys hm]
    rfl
  · intro m hm
    rw [buildMap_keys hm]
    rfl
  · intro m hm
    rw [buildMap_keys hm]
    rfl
  · intro m hm
    rcases hcm : mapInstalledCapacities es with _ | cm
    · unfold mapCharacteristicValues at hm
      rw [hcm] at hm
      cases hm
    · unfold mapCharacteristicValues at hm
      rw [hcm] at hm
      have hb : buildMap (charValOfNode es cm) es.nodes = some m := hm
      rw [buildMap_keys hb]
      rfl

/-- Witness for C8 at the concrete system `esW`. -/
theorem result_mapping_keys_witness :
    (mapLoads esW).map Prod.fst = mapNodes esW ∧
    [(("S", "B"), (1 : ℚ)), (("G", "B"), 0), (("B", "D"), 0),
     (("B", "G"), 0)].map Prod.fst = mapEdges esW := by
  have h := result_mapping_keys esW
  exact ⟨h.1, h.2.2.1 _ (by decide)⟩

/-- C9: the inference of an installed capacity from observed flow maxima is
guarded against an empty series only on the outflow side: an
outflow-characterized node without investment and nominal value whose observed
outflow series is empty reports capacity 0, whereas a Sink in the same
situation applies the built-in `max` to the inflow series unguarded, so an
empty inflow series makes `_map_installed_capacities` raise instead of
returning 0. -/
theorem empty_series_capacity_asymmetry
    (es : EnergySystem) (node : Node) (hmem : node ∈ es.nodes)
    (hnd : (es.nodes.map fun n => n.label.name).Nodup) :
    (node.kind.outflowCharacterized = true →
      ((outputFlows es node).map Prod.fst).Nodup →
      ∀ tgt f, (tgt, f) ∈ outputFlows es node →
        f.investment = none → f.nominal_value = none →
        nodeOutflowSeries es node tgt = [] →
        ∀ m, mapInstalledCapacities es = some m →
          reportedTerminal m node.label.name tgt = some 0) ∧
    (node.kind.inflowCharacterized = true →
      ∀ src f, (src, f) ∈ inputFlows es node →
        f.investment = none → f.nominal_value = none →
        nodeInflowSeries es node src = [] →
        mapInstalledCapacities es = none) := by
  constructor
  · intro hchar hndt tgt f hmemf hinv hnom hser m hm
    have hcap : outflowFlowCap es node tgt f = some 0 := by
      unfold outflowFlowCap
      rw [hinv, hnom, hser]
      rfl
    have hl := buildMap_lookup hm hmem hnd
    obtain ⟨rv, hrv⟩ := buildMap_eq_some hm hmem
    rw [instCapOfNode_outflow es node hchar] at hrv
    rcases hfe : flowEntries (outflowFlowCap es node) (outputFlows es node)
      with _ | entries
    · rw [hfe] at hrv
      cases hrv
    · rw [hfe] at hrv
      have hshape :
          shapeResult entries (outputFlows es node).length = some rv := hrv
      obtain ⟨c, hc, halo⟩ := flowEntries_lookup hfe hmemf hndt
      rw [hcap] at hc
      have hc0 : (0 : ℚ) = c := Option.some.inj hc
      subst hc0
      unfold reportedTerminal
      rw [hl, instCapOfNode_outflow es node hchar, hfe]
      have hterm := shapeResult_atTerminal hshape (flowEntries_length hfe) halo
      rw [show ((some entries).bind fun entries =>
        shapeResult entries (outputFlows es node).length) =
          shapeResult entries (outputFlows es node).length from rfl, hshape]
      exact hterm
  · intro hchar src f hmemf hinv hnom hser
    have hkind := inflowCharacterized_eq_sink hchar
    have hcap : sinkFlowCap es node src f = none := by
      unfold sinkFlowCap
      rw [hinv, hnom, hser]
      rfl
    have hfe : flowEntries (sinkFlowCap es node) (inputFlows es node) = none :=
      flowEntries_none hmemf hcap
    have hnone : instCapOfNode es node = none := by
      rw [instCapOfNode_sink es node hkind, hfe]
      rfl
    exact buildMap_none hmem hnone

/-- Witness for C9: the transformer `T` of `esEmptyOutflow` (empty observed
outflow) reports capacity 0, while the sink `D` of `esEmptyInflowSink` (empty
observed inflow) makes the whole map construction raise. -/
theorem empty_series_capacity_asymmetry_witness :
    reportedTerminal
      [("T", ResVal.scalar (.val 0)), ("B", ResVal.scalar .sentinel),
       ("D", ResVal.scalar (.val 5))] "T" "B" = some 0 ∧
    mapInstalledCapacities esEmptyInflowSink = none := by
  constructor
  · exact (empty_series_capacity_asymmetry esEmptyOutflow
      (Node.plain "T" .transformer) (by decide) (by decide)).1 rfl (by decide)
      "B" ⟨none, none, some [0], none⟩ (by decide) rfl rfl (by decide) _
      (by decide)
  · exact (empty_series_capacity_asymmetry esEmptyInflowSink
      (Node.plain "D" .sink) (by decide) (by decide)).2 rfl
      "B" ⟨none, none, some [0], none⟩ (by decide) rfl rfl (by decide)

/-- C10: in every load DataFrame returned by LoadResultier (keyed by node
name, with the node name as the columns' name), inflow columns hold only
non-positive values with zeros stored as negative zero, outflow columns hold
only non-negative values with zeros stored as positive zero, and the inflow
columns are concatenated before the outflow columns.  (The observed solver
flow series are non-negative.) -/
theorem load_df_sign_rule
    (es : EnergySystem) (node : Node) (hmem : node ∈ es.nodes)
    (hnd : (es.nodes.map fun n => n.label.name).Nodup)
    (hraw : ∀ e ∈ es.sequences, ∀ q ∈ e.2, 0 ≤ q) :
    alookup (mapLoads es) node.label.name = some (loadDFOf es node) ∧
    (loadDFOf es node).colName = node.label.name ∧
    (loadDFOf es node).cols =
      inflowLoadCols es node ++ outflowLoadCols es node ∧
    (∀ c ∈ inflowLoadCols es node, ∀ x ∈ c.2,
      x.val ≤ 0 ∧ (x.val = 0 → x.negZero = true)) ∧
    (∀ c ∈ outflowLoadCols es node, ∀ x ∈ c.2,
      0 ≤ x.val ∧ (x.val = 0 → x.negZero = false)) := by
  refine ⟨?_, rfl, rfl, ?_, ?_⟩
  · exact alookup_map_of_mem (fun n : Node => n.label.name) (loadDFOf es)
      hmem hnd
  · intro c hc x hx
    rcases List.mem_filterMap.mp hc with ⟨sc, hsc, hmap⟩
    rcases Option.map_eq_some'.mp hmap with ⟨nm, hnm, rfl⟩
    rcases List.mem_map.mp hx with ⟨q, hq, rfl⟩
    have hseq : sc ∈ es.sequences := List.mem_of_mem_filter hsc
    exact inflow_cell_sign (hraw sc hseq q hq)
  · intro c hc x hx
    rcases List.mem_filterMap.mp hc with ⟨sc, hsc, hcol⟩
    have hseq : sc ∈ es.sequences := List.mem_of_mem_filter hsc
    by_cases hin : (inflowColName es node sc.1).isSome
    · rw [if_pos hin] at hcol
      cases hcol
    · rw [if_neg hin] at hcol
      have hc2 : c.2 = sc.2.map fun q => (SFloat.ofRat q).toPosZero :=
        congrArg Prod.snd (Option.some.inj hcol).symm
      rw [hc2] at hx
      rcases List.mem_map.mp hx with ⟨q, hq, rfl⟩
      exact outflow_cell_sign (hraw sc hseq q hq)

/-- Witness for C10 at the bus `B` of `esW` (which has both inflow and
outflow columns). -/
theorem load_df_sign_rule_witness :
    alookup (mapLoads esW) "B" = some (loadDFOf esW nodeB) :=
  (load_df_sign_rule esW nodeB (by decide) (by decide) (by decide)).1

/-- C1: for every inflow-characterized node (Sink) and every
outflow-characterized node (Transformer, Source, OffsetTransformer,
ExtractionTurbineCHP, GenericCHP), and for each of that node's flows, the
installed capacity reported by CapacityResultier is the optimized investment
result plus the investment's existing capacity when the flow carries an
investment object; otherwise the flow's explicit nominal_value when present;
otherwise the maximum of the observed flow time series for that edge
(`specInstalledCapOfFlow`).  For a GenericStorage it is the invest result plus
the existing capacity when investing, else `nominal_storage_capacity`
(`specStorageInstalledCap`). -/
theorem installed_capacity_rule
    (es : EnergySystem) (node : Node) (m : List (String × ResVal))
    (hm : mapInstalledCapacities es = some m) (hmem : node ∈ es.nodes)
    (hnd : (es.nodes.map fun n => n.label.name).Nodup) :
    (node.kind.inflowCharacterized = true →
      ((inputFlows es node).map Prod.fst).Nodup →
      ∀ src f v, (src, f) ∈ inputFlows es node →
        specInstalledCapOfFlow es src node.label.name f = some v →
        reportedTerminal m node.label.name src = some v) ∧
    (node.kind.outflowCharacterized = true →
      ((outputFlows es node).map Prod.fst).Nodup →
      ∀ tgt f v, (tgt, f) ∈ outputFlows es node →
        specInstalledCapOfFlow es node.label.name tgt f = some v →
        reportedTerminal m node.label.name tgt = some v) ∧
    (node.kind = .genericStorage →
      ∀ v, specStorageInstalledCap es node = some v →
        alookup m node.label.name = some (.scalar (.val v))) := by
  have hl := buildMap_lookup hm hmem hnd
  refine ⟨?_, ?_, ?_⟩
  · intro hchar hndt src f v hmemf hspec
    have hkind := inflowCharacterized_eq_sink hchar
    obtain ⟨rv, hrv⟩ := buildMap_eq_some hm hmem
    rw [instCapOfNode_sink es node hkind] at hrv
    rcases hfe : flowEntries (sinkFlowCap es node) (inputFlows es node)
      with _ | entries
    · rw [hfe] at hrv
      cases hrv
    · rw [hfe] at hrv
      have hshape :
          shapeResult entries (inputFlows es node).length = some rv := hrv
      obtain ⟨c, hc, halo⟩ := flowEntries_lookup hfe hmemf hndt
      rw [sinkFlowCap_eq_spec, hspec] at hc
      have hcv : v = c := Option.some.inj hc
      subst hcv
      unfold reportedTerminal
      rw [hl, instCapOfNode_sink es node hkind, hfe]
      rw [show ((some entries).bind fun entries =>
        shapeResult entries (inputFlows es node).length) =
          shapeResult entries (inputFlows es node).length from rfl, hshape]
      exact shapeResult_atTerminal hshape (flowEntries_length hfe) halo
  · intro hchar hndt tgt f v hmemf hspec
    obtain ⟨rv, hrv⟩ := buildMap_eq_some hm hmem
    rw [instCapOfNode_outflow es node hchar] at hrv
    rcases hfe : flowEntries (outflowFlowCap es node) (outputFlows es node)
      with _ | entries
    · rw [hfe] at hrv
      cases hrv
    · rw [hfe] at hrv
      have hshape :
          shapeResult entries (outputFlows es node).length = some rv := hrv
      obtain ⟨c, hc, halo⟩ := flowEntries_lookup hfe hmemf hndt
      rw [outflowFlowCap_of_spec hspec] at hc
      have hcv : v = c := Option.some.inj hc
      subst hcv
      unfold reportedTerminal
      rw [hl, instCapOfNode_outflow es node hchar, hfe]
      rw [show ((some entries).bind fun entries =>
        shapeResult entries (outputFlows es node).length) =
          shapeResult entries (outputFlows es node).length from rfl, hshape]
      exact shapeResult_atTerminal hshape (flowEntries_length hfe) halo
  · intro hkind v hspec
    rw [hl, instCapOfNode_storage es node hkind]
    unfold specStorageInstalledCap at hspec
    rcases hinv : node.investment with _ | inv
    · rw [hinv] at hspec
      have hv : node.nominal_storage_capacity = v := Option.some.inj hspec
      exact congrArg (fun x => some (ResVal.scalar (.val x))) hv
    · rw [hinv] at hspec
      rcases ha : alookup es.invest_scalars (node.label.name, none)
        with _ | a
      · rw [ha] at hspec
        simp at hspec
      · rw [ha] at hspec
        have hv : a + inv.existing = v := Option.some.inj hspec
        exact congrArg (fun x => some (ResVal.scalar (.val x))) hv

/-- Witness for C1: the investment flow `B → D` of `esW` has invest result 6
plus existing 2, and the Sink `D` reports exactly 8. -/
theorem installed_capacity_rule_witness :
    specInstalledCapOfFlow esW "B" "D" flowBD = some 8 ∧
    reportedTerminal
      [("S", ResVal.scalar (.val 10)), ("B", ResVal.scalar .sentinel),
       ("D", ResVal.scalar (.val 8)), ("G", ResVal.scalar (.val 6))]
      "D" "B" = some 8 := by
  have hspec : specInstalledCapOfFlow esW "B" "D" flowBD = some 8 := by
    norm_num +decide [specInstalledCapOfFlow, flowBD, esW, alookup]
  refine ⟨hspec, ?_⟩
  exact (installed_capacity_rule esW nodeD _
    (by norm_num +decide [mapInstalledCapacities, buildMap, instCapOfNode,
      flowEntries, inputFlows, outputFlows, esW, nodeS, nodeB, nodeD, nodeG,
      flowSB, flowBD, flowBG, flowGB, Node.plain, Uid.plain, alookup,
      sinkFlowCap, outflowFlowCap, shapeResult, flowSeq])
    (by decide) (by decide)).1 rfl (by decide) "B" flowBD 8 (by decide) hspec

/-- C4: the pre-optimization (original) capacity reported by
CapacityResultier is exactly the investment's existing capacity when a flow
carries an investment object (the optimized invest result excluded);
otherwise the flow's nominal_value when present, and 0 when no nominal value
was set (`specOriginalCapOfFlow`); buses and links get the variable-capacity
sentinel; storages get the existing investment capacity or
`nominal_storage_capacity`. -/
theorem original_capacity_rule
    (es : EnergySystem) (node : Node) (mo : List (String × ResVal))
    (hmo : mapOriginalCapacities es = some mo) (hmem : node ∈ es.nodes)
    (hnd : (es.nodes.map fun n => n.label.name).Nodup) :
    (node.kind.inflowCharacterized = true →
      ((inputFlows es node).map Prod.fst).Nodup →
      ∀ src f, (src, f) ∈ inputFlows es node →
        reportedTerminal mo node.label.name src =
          some (specOriginalCapOfFlow f)) ∧
    (node.kind.outflowCharacterized = true →
      ((outputFlows es node).map Prod.fst).Nodup →
      ∀ tgt f, (tgt, f) ∈ outputFlows es node →
        reportedTerminal mo node.label.name tgt =
          some (specOriginalCapOfFlow f)) ∧
    ((node.kind = .bus ∨ node.kind = .link) →
      alookup mo node.label.name = some (.scalar .sentinel)) ∧
    (node.kind = .genericStorage →
      ∀ inv, node.investment = some inv →
        alookup mo node.label.name = some (.scalar (.val inv.existing))) ∧
    (node.kind = .genericStorage → node.investment = none →
      alookup mo node.label.name =
        some (.scalar (.val node.nominal_storage_capacity))) := by
  have hl := buildMap_lookup hmo hmem hnd
  refine ⟨?_, ?_, ?_, ?_, ?_⟩
  · intro hchar hndt src f hmemf
    have hkind := inflowCharacterized_eq_sink hchar
    obtain ⟨rv, hrv⟩ := buildMap_eq_some hmo hmem
    rw [origCapOfNode_sink es node hkind] at hrv
    have halo : alookup ((inputFlows es node).map fun p =>
        (p.1, origFlowCap p.2)) src = some (origFlowCap f) :=
      alookup_map_of_mem Prod.fst (fun p => origFlowCap p.2) hmemf hndt
    unfold reportedTerminal
    rw [hl, origCapOfNode_sink es node hkind, hrv]
    have hterm := shapeResult_atTerminal hrv (by simp) halo
    rw [show ((some rv).bind fun rv => rv.atTerminal src) =
      rv.atTerminal src from rfl, hterm, origFlowCap_eq_spec]
  · intro hchar hndt tgt f hmemf
    obtain ⟨rv, hrv⟩ := buildMap_eq_some hmo hmem
    rw [origCapOfNode_outflow es node hchar] at hrv
    have halo : alookup ((outputFlows es node).map fun p =>
        (p.1, origFlowCap p.2)) tgt = some (origFlowCap f) :=
      alookup_map_of_mem Prod.fst (fun p => origFlowCap p.2) hmemf hndt
    unfold reportedTerminal
    rw [hl, origCapOfNode_outflow es node hchar, hrv]
    have hterm := shapeResult_atTerminal hrv (by simp) halo
    rw [show ((some rv).bind fun rv => rv.atTerminal tgt) =
      rv.atTerminal tgt from rfl, hterm, origFlowCap_eq_spec]
  · intro hk
    rw [hl, origCapOfNode_buslink es node hk]
  · intro hkind inv hinv
    rw [hl, origCapOfNode_storage es node hkind, hinv]
  · intro hkind hinv
    rw [hl, origCapOfNode_storage es node hkind, hinv]

/-- Witness for C4: the investment flow `B → D` of `esW` reports original
capacity `existing = 2` (the invest result 6 is excluded), and the bus `B`
reports the sentinel. -/
theorem original_capacity_rule_witness :
    reportedTerminal
      [("S", ResVal.scalar (.val 10)), ("B", ResVal.scalar .sentinel),
       ("D", ResVal.scalar (.val 2)), ("G", ResVal.scalar (.val 2))]
      "D" "B" = some 2 ∧
    alookup
      [("S", ResVal.scalar (.val 10)), ("B", ResVal.scalar .sentinel),
       ("D", ResVal.scalar (.val 2)), ("G", ResVal.scalar (.val 2))]
      "B" = some (ResVal.scalar .sentinel) := by
  have h1 := original_capacity_rule esW nodeD
    [("S", ResVal.scalar (.val 10)), ("B", ResVal.scalar .sentinel),
     ("D", ResVal.scalar (.val 2)), ("G", ResVal.scalar (.val 2))]
    (by decide) (by decide) (by decide)
  have h2 := original_capacity_rule esW nodeB
    [("S", ResVal.scalar (.val 10)), ("B", ResVal.scalar .sentinel),
     ("D", ResVal.scalar (.val 2)), ("G", ResVal.scalar (.val 2))]
    (by decide) (by decide) (by decide)
  exact ⟨h1.1 rfl (by decide) "B" flowBD (by decide),
    h2.2.2.1 (Or.inl rfl)⟩

/-- C5: for every characterized node, the installed-capacity,
original-capacity and expansion-cost mappings share the shape rule — a node
with more than one relevant terminal (inflows of an inflow-characterized node,
outflows of an outflow-characterized one) maps to a Series keyed by terminal
label, a node with exactly one relevant terminal maps to the bare scalar
value. -/
theorem capacity_result_shape_rule
    (es : EnergySystem) (node : Node)
    (mi mo mx : List (String × ResVal))
    (hmi : mapInstalledCapacities es = some mi)
    (hmo : mapOriginalCapacities es = some mo)
    (hmx : mapExpansionCosts es = some mx)
    (hmem : node ∈ es.nodes)
    (hnd : (es.nodes.map fun n => n.label.name).Nodup)
    (hchar : node.kind.inflowCharacterized = true ∨
      node.kind.outflowCharacterized = true) :
    (1 < (terminalFlows es node).length →
      ((alookup mi node.label.name).bind ResVal.seriesKeys =
         some ((terminalFlows es node).map Prod.fst) ∧
       (alookup mo node.label.name).bind ResVal.seriesKeys =
         some ((terminalFlows es node).map Prod.fst) ∧
       (alookup mx node.label.name).bind ResVal.seriesKeys =
         some ((terminalFlows es node).map Prod.fst))) ∧
    ((terminalFlows es node).length = 1 →
      ((alookup mi node.label.name).map ResVal.isBareScalar = some true ∧
       (alookup mo node.label.name).map ResVal.isBareScalar = some true ∧
       (alookup mx node.label.name).map ResVal.isBareScalar = some true)) := by
  have hli := buildMap_lookup hmi hmem hnd
  have hlo := buildMap_lookup hmo hmem hnd
  have hlx := buildMap_lookup hmx hmem hnd
  obtain ⟨rvi, hrvi⟩ := buildMap_eq_some hmi hmem
  obtain ⟨rvo, hrvo⟩ := buildMap_eq_some hmo hmem
  obtain ⟨rvx, hrvx⟩ := buildMap_eq_some hmx hmem
  rcases hchar with hcf | hcf
  · have hkind := inflowCharacterized_eq_sink hcf
    have hterm : terminalFlows es node = inputFlows es node := by
      unfold terminalFlows
      rw [if_pos hcf]
    rw [hterm]
    rw [instCapOfNode_sink es node hkind] at hrvi
    rcases hfe : flowEntries (sinkFlowCap es node) (inputFlows es node)
      with _ | entries
    · rw [hfe] at hrvi
      cases hrvi
    · rw [hfe] at hrvi
      have hshapei :
          shapeResult entries (inputFlows es node).length = some rvi := hrvi
      have hci := shape_conclusion (hli.trans
          (by rw [instCapOfNode_sink es node hkind, hfe]; exact hrvi))
        hshapei (flowEntries_length hfe) (flowEntries_keys hfe)
      rw [origCapOfNode_sink es node hkind] at hrvo
      have hco := shape_conclusion (hlo.trans
          (by rw [origCapOfNode_sink es node hkind]; exact hrvo))
        hrvo (by simp) (by rw [List.map_map])
      rw [expCostOfNode_sink es node hkind] at hrvx
      have hcx := shape_conclusion (hlx.trans
          (by rw [expCostOfNode_sink es node hkind]; exact hrvx))
        hrvx (by simp) (by rw [List.map_map])
      exact ⟨fun hgt => ⟨hci.1 hgt, hco.1 hgt, hcx.1 hgt⟩,
        fun heq => ⟨hci.2 heq, hco.2 heq, hcx.2 heq⟩⟩
  · have hterm : terminalFlows es node = outputFlows es node := by
      unfold terminalFlows
      have hnotin : ¬ node.kind.inflowCharacterized = true := by
        cases hkk : node.kind <;> rw [hkk] at hcf <;>
          first
            | exact absurd hcf (by decide)
            | decide
      rw [if_neg hnotin]
    rw [hterm]
    rw [instCapOfNode_outflow es node hcf] at hrvi
    rcases hfe : flowEntries (outflowFlowCap es node) (outputFlows es node)
      with _ | entries
    · rw [hfe] at hrvi
      cases hrvi
    · rw [hfe] at hrvi
      have hshapei :
          shapeResult entries (outputFlows es node).length = some rvi := hrvi
      have hci := shape_conclusion (hli.trans
          (by rw [instCapOfNode_outflow es node hcf, hfe]; exact hrvi))
        hshapei (flowEntries_length hfe) (flowEntries_keys hfe)
      rw [origCapOfNode_outflow es node hcf] at hrvo
      have hco := shape_conclusion (hlo.trans
          (by rw [origCapOfNode_outflow es node hcf]; exact hrvo))
        hrvo (by simp) (by rw [List.map_map])
      rw [expCostOfNode_outflow es node hcf] at hrvx
      have hcx := shape_conclusion (hlx.trans
          (by rw [expCostOfNode_outflow es node hcf]; exact hrvx))
        hrvx (by simp) (by rw [List.map_map])
      exact ⟨fun hgt => ⟨hci.1 hgt, hco.1 hgt, hcx.1 hgt⟩,
        fun heq => ⟨hci.2 heq, hco.2 heq, hcx.2 heq⟩⟩

/-- Witness for C5: in `esTwoInflowSink` the two-inflow sink `D` gets Series
keyed by ["A", "C"] in all three mappings, and the single-outflow source `A`
gets bare scalars. -/
theorem capacity_result_shape_rule_witness :
    ((alookup [("A", ResVal.scalar (.val 5)), ("C", ResVal.scalar (.val 7)),
       ("D", ResVal.series [("A", 5), ("C", 7)])] "D").bind
      ResVal.seriesKeys = some ["A", "C"]) ∧
    ((alookup [("A", ResVal.scalar (.val 5)), ("C", ResVal.scalar (.val 7)),
       ("D", ResVal.series [("A", 0), ("C", 0)])] "A").map
      ResVal.isBareScalar = some true) := by
  have hD := capacity_result_shape_rule esTwoInflowSink (Node.plain "D" .sink)
    [("A", ResVal.scalar (.val 5)), ("C", ResVal.scalar (.val 7)),
     ("D", ResVal.series [("A", 5), ("C", 7)])]
    [("A", ResVal.scalar (.val 5)), ("C", ResVal.scalar (.val 7)),
     ("D", ResVal.series [("A", 5), ("C", 7)])]
    [("A", ResVal.scalar (.val 0)), ("C", ResVal.scalar (.val 0)),
     ("D", ResVal.series [("A", 0), ("C", 0)])]
    (by decide) (by decide) (by decide) (by decide) (by decide) (Or.inl rfl)
  have hA := capacity_result_shape_rule esTwoInflowSink
    (Node.plain "A" .source)
    [("A", ResVal.scalar (.val 5)), ("C", ResVal.scalar (.val 7)),
     ("D", ResVal.series [("A", 5), ("C", 7)])]
    [("A", ResVal.scalar (.val 5)), ("C", ResVal.scalar (.val 7)),
     ("D", ResVal.series [("A", 5), ("C", 7)])]
    [("A", ResVal.scalar (.val 0)), ("C", ResVal.scalar (.val 0)),
     ("D", ResVal.series [("A", 0), ("C", 0)])]
    (by decide) (by decide) (by decide) (by decide) (by decide) (Or.inr rfl)
  exact ⟨(hD.1 (by decide)).1, (hA.2 (by decide)).2.2⟩

/-- C2 (amended): for a node whose installed capacity is a known scalar, the
characteristic value is the characteristic-flow mean (state-of-charge series
for GenericStorage, electrical output for GenericCHP, summed loads otherwise,
`characteristicMean`) divided by the capacity, and 0 when the capacity is 0;
it is the default characteristic value when the capacity is the
variable-capacity sentinel.  For a node whose installed capacity is a
per-terminal Series, each terminal with capacity 0 gets 0 and each terminal
with nonzero capacity whose label is a column of the node's outflow means
gets (column mean) / capacity — a terminal whose label is no outflow column
(as for a multi-inflow Sink) instead raises a KeyError, so the hypothesis
that each nonzero-capacity terminal has an outflow-mean column is required
(the original claim asserted the Series case unconditionally). -/
theorem characteristic_value_rule
    (es : EnergySystem) (node : Node)
    (cm : List (String × ResVal)) (mv : List (String × CharVal))
    (hcm : mapInstalledCapacities es = some cm)
    (hmv : mapCharacteristicValues es = some mv)
    (hmem : node ∈ es.nodes)
    (hnd : (es.nodes.map fun n => n.label.name).Nodup) :
    (∀ q mean, alookup cm node.label.name = some (.scalar (.val q)) →
      characteristicMean es node = some mean →
      alookup mv node.label.name =
        some (.scalar (if q = 0 then 0 else mean / q))) ∧
    (alookup cm node.label.name = some (.scalar .sentinel) →
      alookup mv node.label.name = some .dfault) ∧
    (∀ s, alookup cm node.label.name = some (.series s) →
      (∀ p ∈ s, p.2 = 0 ∨ (alookup (outflowMeans es node) p.1).isSome) →
      alookup mv node.label.name = some (.series (s.map fun p =>
        (p.1, if p.2 = 0 then 0
              else (alookup (outflowMeans es node) p.1).getD 0 / p.2)))) := by
  unfold mapCharacteristicValues at hmv
  rw [hcm] at hmv
  have hb : buildMap (charValOfNode es cm) es.nodes = some mv := hmv
  have hl := buildMap_lookup hb hmem hnd
  refine ⟨?_, ?_, ?_⟩
  · intro q mean hq hmean
    rw [hl, charValOfNode_scalarVal hq, hmean]
    by_cases hq0 : q = 0
    · rw [if_pos hq0]
      rw [show ((some mean).bind fun mean =>
        if q = 0 then some (CharVal.scalar 0)
        else some (CharVal.scalar (mean / q))) =
          (if q = 0 then some (CharVal.scalar 0)
           else some (CharVal.scalar (mean / q))) from rfl, if_pos hq0]
    · rw [if_neg hq0]
      rw [show ((some mean).bind fun mean =>
        if q = 0 then some (CharVal.scalar 0)
        else some (CharVal.scalar (mean / q))) =
          (if q = 0 then some (CharVal.scalar 0)
           else some (CharVal.scalar (mean / q))) from rfl, if_neg hq0]
  · intro hq
    rw [hl, charValOfNode_sentinel hq]
  · intro s hq hall
    rw [hl, charValOfNode_series hq]
    have hmapped : optMapList (fun p =>
        if p.2 ≠ 0 then
          (alookup (outflowMeans es node) p.1).map fun mean =>
            (p.1, mean / p.2)
        else some (p.1, (0 : ℚ))) s =
        some (s.map fun p =>
          (p.1, if p.2 = 0 then 0
                else (alookup (outflowMeans es node) p.1).getD 0 / p.2)) := by
      refine optMapList_eq_map ?_
      intro p hp
      by_cases hp0 : p.2 = 0
      · rw [if_neg (by simpa using hp0), if_pos hp0]
      · rcases hall p hp with hp0' | hsome
        · exact absurd hp0' hp0
        · rcases Option.isSome_iff_exists.mp hsome with ⟨mean, hmean⟩
          rw [if_pos hp0, hmean, if_neg hp0]
          rfl
    rw [hmapped]
    rfl

/-- C2 counterexample: in `esTwoInflowSink` the sink `D` has a two-terminal
Series installed capacity with nonzero capacities, but `D` has no outflow
columns, so `characteristic_mean[idx]` raises a KeyError and the
characteristic-value construction produces no mapping at all — the claim's
unconditional Series case fails. -/
theorem characteristic_value_series_sink_failure :
    mapInstalledCapacities esTwoInflowSink =
      some [("A", ResVal.scalar (.val 5)), ("C", ResVal.scalar (.val 7)),
            ("D", ResVal.series [("A", 5), ("C", 7)])] ∧
    mapCharacteristicValues esTwoInflowSink = none := by
  constructor
  · decide
  · norm_num +decide [mapCharacteristicValues, mapInstalledCapacities,
      buildMap, instCapOfNode, flowEntries, inputFlows, outputFlows,
      esTwoInflowSink, Node.plain, Uid.plain, alookup, sinkFlowCap,
      outflowFlowCap, shapeResult, flowSeq, charValOfNode,
      characteristicMean, summedLoads, pointwiseSum, maxLen, seriesMean,
      outflowMeans, outflowCols, optMapList, mapStatesOfCharge, socEntries,
      socOfStorage, inputLabels, outputLabels,
      Component.inflowCharacterized, List.range, List.range.loop,
      List.getElem?_cons_zero, List.getElem?_cons_succ, Option.getD,
      Function.comp, List.filterMap_cons]

/-- Witness for C2 at the source `S` of `esW`: capacity 10, summed-load mean
4, characteristic value 2/5. -/
theorem characteristic_value_rule_witness :
    alookup [("S", CharVal.scalar (2/5)), ("B", CharVal.dfault),
             ("D", CharVal.scalar (1/2)), ("G", CharVal.scalar (5/12))]
      "S" = some (CharVal.scalar ((2 : ℚ)/5)) := by
  have h := (characteristic_value_rule esW nodeS
    [("S", ResVal.scalar (.val 10)), ("B", ResVal.scalar .sentinel),
     ("D", ResVal.scalar (.val 8)), ("G", ResVal.scalar (.val 6))]
    [("S", CharVal.scalar (2/5)), ("B", CharVal.dfault),
     ("D", CharVal.scalar (1/2)), ("G", CharVal.scalar (5/12))]
    (by norm_num +decide [mapInstalledCapacities, buildMap, instCapOfNode,
      flowEntries, inputFlows, outputFlows, esW, nodeS, nodeB, nodeD, nodeG,
      flowSB, flowBD, flowBG, flowGB, Node.plain, Uid.plain, alookup,
      sinkFlowCap, outflowFlowCap, shapeResult, flowSeq])
    (by norm_num +decide [mapCharacteristicValues, mapInstalledCapacities,
      buildMap, instCapOfNode, flowEntries, inputFlows, outputFlows, esW,
      nodeS, nodeB, nodeD, nodeG, flowSB, flowBD, flowBG, flowGB, Node.plain,
      Uid.plain, alookup, sinkFlowCap, outflowFlowCap, shapeResult, flowSeq,
      charValOfNode, characteristicMean, summedLoads, pointwiseSum, maxLen,
      seriesMean, outflowMeans, outflowCols, optMapList, mapStatesOfCharge,
      socEntries, socOfStorage, inputLabels, outputLabels,
      Component.inflowCharacterized, List.range, List.range.loop,
      List.getElem?_cons_zero, List.getElem?_cons_succ, Option.getD,
      Function.comp, List.filterMap_cons])
    (by decide) (by decide)).1 10 4 (by decide)
    (by norm_num +decide [characteristicMean, summedLoads, pointwiseSum,
      maxLen, seriesMean, flowSeq, alookup, esW, nodeS, nodeB, nodeD, nodeG,
      flowSB, flowBD, flowBG, flowGB, Node.plain, Uid.plain, inputLabels,
      outputLabels, inputFlows, outputFlows, Component.inflowCharacterized,
      List.range, List.range.loop, List.getElem?_cons_zero,
      List.getElem?_cons_succ, Option.getD, Function.comp,
      List.filterMap_cons])
  norm_num at h
  exact h

end TessifOmf
